import Mathlib

/-!
A verification development for the vdo user-space format/reconfigure tools.

The program under study formats a backing block device with the on-disk
metadata layout of a VDO volume and adjusts that metadata out of band
(force rebuild, read-only).  The definitions below are a shallow embedding
of the C sources: `vdoConfig.c` (format driver, partition clearing, super
block state updates), `blockMapInternals.h` (block map sizing interface),
and `memoryLinuxUser.c` (`uds_allocate_memory`).  Functions whose C source
is not part of this repository snapshot (volumeGeometry.c, forest.c,
superBlock.c, vdoLayout.c, slab code) are modelled from the specification;
each such definition carries a doc comment saying so.

Machine integers are modelled as `Nat`; the code under study never relies
on wrap-around in the verified paths.  The physical layer is modelled as a
state holding the disk contents (a map from physical block number to byte
list), the ordered list of attempted write calls, and counters used to
drive injected I/O and allocation faults.
-/


/-! ## Basic constants and numeric helpers -/

/-- One VDO block is 4096 bytes (`VDO_BLOCK_SIZE` in `constants.h`). -/
def VDO_BLOCK_SIZE : Nat := 4096

/-- Entries per block map leaf page, a fixed constant of the on-disk format. -/
def BLOCK_MAP_ENTRIES_PER_PAGE : Nat := 812

/-- Default number of block map tree roots (`DEFAULT_BLOCK_MAP_TREE_ROOT_COUNT`). -/
def DEFAULT_BLOCK_MAP_TREE_ROOT_COUNT : Nat := 60

/-- Ceiling division, the `computeBucketCount`-style rounding used throughout. -/
def ceilDiv (a b : Nat) : Nat := (a + b - 1) / b

/-- Little-endian encoding of the low `width` bytes of `n`. -/
def encodeLE (width n : Nat) : List Nat :=
  match width with
  | 0 => []
  | w + 1 => (n % 256) :: encodeLE w (n / 256)

/-- Little-endian decoding of a byte list. -/
def decodeLE (bytes : List Nat) : Nat :=
  match bytes with
  | [] => 0
  | b :: rest => b % 256 + 256 * decodeLE rest

/-! ## CRC-32C (Castagnoli), reflected form, as pinned by the spec

The polynomial 0x1EDC6F41 reflected is 0x82F63B78; init and xorout are both
0xFFFFFFFF.  No claim depends on particular digest values, only on the digest
being a deterministic function of the input bytes and staying below 2^32. -/
def CRC32C_POLY_REFLECTED : Nat := 0x82F63B78

def crcShift : Nat → Nat → Nat
  | 0, c => c
  | k + 1, c => crcShift k (if c % 2 = 1 then (c / 2) ^^^ CRC32C_POLY_REFLECTED else c / 2)

def crc32cUpdate (crc byte : Nat) : Nat := crcShift 8 (crc ^^^ byte % 256)

def crc32c (bytes : List Nat) : Nat :=
  (bytes.foldl crc32cUpdate 0xFFFFFFFF) ^^^ 0xFFFFFFFF

/-! ## Error taxonomy (statusCodes / uds errors)

The numeric values of the C status codes are immaterial to the claims; the
constructors track the error kinds of the specification taxonomy. -/
inductive VDOErr where
  | outOfRange
  | outOfMemory
  | ioError
  | badMagic
  | unsupportedVersion
  | badChecksum
  | incorrectComponent
  | badLength
  | notReadOnly
  | corrupt
deriving DecidableEq

/-- Decidable equality for fallible results, used to evaluate the model on
concrete inputs. -/
instance exceptDecEq {ε α : Type} [DecidableEq ε] [DecidableEq α] :
    DecidableEq (Except ε α) := fun x y =>
  match x, y with
  | Except.ok a, Except.ok b =>
      if h : a = b then isTrue (by rw [h]) else isFalse (by simp [h])
  | Except.error e, Except.error f =>
      if h : e = f then isTrue (by rw [h]) else isFalse (by simp [h])
  | Except.ok _, Except.error _ => isFalse (by simp)
  | Except.error _, Except.ok _ => isFalse (by simp)

/-! ## The persisted VDO state enumeration (one-byte tag on disk) -/
inductive VDOState where
  | vdoNew
  | clean
  | dirty
  | readOnlyMode
  | forceRebuild
  | recovering
  | rebuildForUpgrade
  | replaying
deriving DecidableEq

def stateToByte : VDOState → Nat
  | .vdoNew => 0
  | .clean => 1
  | .dirty => 2
  | .readOnlyMode => 3
  | .forceRebuild => 4
  | .recovering => 5
  | .rebuildForUpgrade => 6
  | .replaying => 7

def byteToState : Nat → Option VDOState
  | 0 => some .vdoNew
  | 1 => some .clean
  | 2 => some .dirty
  | 3 => some .readOnlyMode
  | 4 => some .forceRebuild
  | 5 => some .recovering
  | 6 => some .rebuildForUpgrade
  | 7 => some .replaying
  | _ => none

/-! ## uds_allocate_memory (memoryLinuxUser.c, src/unnamed/part_003)

The allocator environment models the outcomes of the underlying libc calls:
the return value of posix_memalign and whether malloc succeeds (with the
errno it would leave behind).  A buffer is a byte list; the code zeroes every
successful allocation with memset. -/
def UDS_SUCCESS : Int := 0

/-- The UDS status code for a null pointer argument.  Its numeric value is
not fixed by the sources in this repository; any nonzero constant serves. -/
def UDS_INVALID_ARGUMENT : Int := 1030

/-- DEFAULT_MALLOC_ALIGNMENT in the C source is 2 * sizeof(size_t) = 16. -/
def DEFAULT_MALLOC_ALIGNMENT : Nat := 16

structure AllocEnv where
  memalignResult : Nat
  mallocOk : Bool
  mallocErrno : Nat

/-- Result of `uds_allocate_memory`: the returned status code together with
the value stored through the out pointer (`none` models storing NULL). -/
structure AllocResult where
  status : Int
  buffer : Option (List Nat)
deriving DecidableEq

/-- Shallow embedding of `uds_allocate_memory` from memoryLinuxUser.c.
`ptrIsNull` models `ptr == NULL`; `what` is only used for logging in the C
code and does not influence the result. -/
def uds_allocate_memory (env : AllocEnv) (size align : Nat) (what : String)
    (ptrIsNull : Bool) : AllocResult :=
  let _ := what
  if ptrIsNull then
    { status := UDS_INVALID_ARGUMENT, buffer := none }
  else if size = 0 then
    { status := UDS_SUCCESS, buffer := none }
  else if DEFAULT_MALLOC_ALIGNMENT < align then
    if env.memalignResult ≠ 0 then
      { status := -(env.memalignResult : Int), buffer := none }
    else
      { status := UDS_SUCCESS, buffer := some (List.replicate size 0) }
  else
    if env.mallocOk then
      { status := UDS_SUCCESS, buffer := some (List.replicate size 0) }
    else
      { status := -(env.mallocErrno : Int), buffer := none }

/-- Fuel-indexed fold of a level of `l` pages up the fan-out-812 tree until
at most one page remains, summing the level sizes.  The fuel is only a
structural-recursion device; `l` itself is always sufficient fuel because
each folding step strictly shrinks the level. -/
def interiorPagesGo : Nat → Nat → Nat
  | 0, _ => 0
  | fuel + 1, l =>
      if l ≤ 1 then 0
      else
        let up := ceilDiv l BLOCK_MAP_ENTRIES_PER_PAGE
        up + interiorPagesGo fuel up

/-- Modelled from the spec: the per-root interior page sum obtained by
folding a level of `l` pages up the fan-out-812 tree until at most one page
remains.  (`forest.c` is not part of this repository snapshot.) -/
def interiorPages (l : Nat) : Nat := interiorPagesGo l l

/-- Modelled from the spec: `block_map_page_count(logical_blocks)` =
leaf pages plus interior pages summed across the tree roots
(`blockMap.c` / `forest.c` are not part of this repository snapshot). -/
def computeBlockMapPageCount (entries : Nat) : Nat :=
  let leaves := ceilDiv entries BLOCK_MAP_ENTRIES_PER_PAGE
  let perRoot := ceilDiv leaves DEFAULT_BLOCK_MAP_TREE_ROOT_COUNT
  leaves + DEFAULT_BLOCK_MAP_TREE_ROOT_COUNT * interiorPages perRoot

/-- Modelled from the spec: `compute_forest_size(entries, root_count)`, the
total page count of a block map forest mapping `entries` logical blocks
across `root_count` roots (`forest.c` is not part of this snapshot). -/
def compute_forest_size (entries rootCount : Nat) : Nat :=
  let leaves := ceilDiv entries BLOCK_MAP_ENTRIES_PER_PAGE
  let perRoot := ceilDiv leaves rootCount
  leaves + rootCount * interiorPages perRoot

/-- The derivation `configureVDO` performs when `config.logicalBlocks == 0`
(vdoConfig.c lines 115-121): the logical capacity becomes the depot data
block count minus the forest size computed at that same data block count. -/
def deriveLogicalBlocksWhenZero (dataBlocks : Nat) : Nat :=
  dataBlocks - compute_forest_size dataBlocks DEFAULT_BLOCK_MAP_TREE_ROOT_COUNT

/-! ## The physical layer model

A `Layer` carries the device block count and oracles describing the outcome
of the n-th write, read and allocation call (`writeOk i = false` injects an
IO_ERROR into the i-th write, and similarly for reads and buffer
allocations).  A `DevState` carries the disk contents, the ordered list of
attempted write calls, and the call counters that index the oracles. -/
structure WriteEvent where
  pbn : Nat
  count : Nat
  data : List Nat
  ok : Bool
deriving DecidableEq

structure DevState where
  disk : Nat → List Nat
  trace : List WriteEvent
  writeCalls : Nat
  readCalls : Nat
  allocCalls : Nat

structure Layer where
  blockCount : Nat
  writeOk : Nat → Bool
  readOk : Nat → Bool
  allocOk : Nat → Bool

/-- The bytes of block `i` of a multi-block write buffer. -/
def bufBlock (data : List Nat) (i : Nat) : List Nat :=
  (data.drop (i * VDO_BLOCK_SIZE)).take VDO_BLOCK_SIZE

/-- Sequencing in the result-and-state style of the C code: on success feed
the value and the updated state to the continuation; on error return the
error with the state reached so far (the `if (result != VDO_SUCCESS)
return result;` idiom). -/
def andThen {α β : Type} (r : Except VDOErr α × DevState)
    (k : α → DevState → Except VDOErr β × DevState) : Except VDOErr β × DevState :=
  match r with
  | (Except.ok a, s) => k a s
  | (Except.error e, s) => (Except.error e, s)

/-- Sequencing with a pure fallible value: on error return it with the
current state (again the early-return idiom of the C code). -/
def exceptStep {α β : Type} (x : Except VDOErr α) (s : DevState)
    (k : α → Except VDOErr β × DevState) : Except VDOErr β × DevState :=
  match x with
  | Except.error e => (Except.error e, s)
  | Except.ok a => k a

/-- The layer's `writer`: on success the blocks `[pbn, pbn + count)` take the
corresponding slices of the buffer; on failure the disk is unchanged.  Every
attempt is recorded in the trace with its outcome. -/
def layerWrite (L : Layer) (pbn count : Nat) (data : List Nat) (s : DevState) :
    Except VDOErr Unit × DevState :=
  if L.writeOk s.writeCalls then
    (Except.ok (),
      { s with
        disk := fun p => if pbn ≤ p ∧ p < pbn + count then bufBlock data (p - pbn) else s.disk p,
        trace := s.trace ++ [⟨pbn, count, data, true⟩],
        writeCalls := s.writeCalls + 1 })
  else
    (Except.error VDOErr.ioError,
      { s with
        trace := s.trace ++ [⟨pbn, count, data, false⟩],
        writeCalls := s.writeCalls + 1 })

/-- The layer's `reader` for a single block. -/
def layerRead (L : Layer) (pbn : Nat) (s : DevState) :
    Except VDOErr (List Nat) × DevState :=
  if L.readOk s.readCalls then
    (Except.ok (s.disk pbn), { s with readCalls := s.readCalls + 1 })
  else
    (Except.error VDOErr.ioError, { s with readCalls := s.readCalls + 1 })

/-- The layer's `allocateIOBuffer` (and the other in-memory constructors that
can only fail with an allocation error): succeeds or fails according to the
allocation oracle. -/
def layerAllocate (L : Layer) (s : DevState) : Except VDOErr Unit × DevState :=
  if L.allocOk s.allocCalls then
    (Except.ok (), { s with allocCalls := s.allocCalls + 1 })
  else
    (Except.error VDOErr.outOfMemory, { s with allocCalls := s.allocCalls + 1 })

/-! ## The fixed layout (vdoLayout.c is not part of this snapshot) -/
inductive PartitionID where
  | blockMap
  | blockAllocator
  | recoveryJournal
  | slabSummary
deriving DecidableEq

structure Partition where
  offset : Nat
  size : Nat
deriving DecidableEq

structure VdoLayout where
  blockMapPart : Partition
  blockAllocatorPart : Partition
  recoveryJournalPart : Partition
  slabSummaryPart : Partition
deriving DecidableEq

def get_vdo_partition (layout : VdoLayout) : PartitionID → Partition
  | .blockMap => layout.blockMapPart
  | .blockAllocator => layout.blockAllocatorPart
  | .recoveryJournal => layout.recoveryJournalPart
  | .slabSummary => layout.slabSummaryPart

/-! ## clearPartition (vdoConfig.c lines 166-196) -/
/-- The buffer-size loop of `clearPartition`: starting from one block, double
the buffer while it is below 4096 blocks and the remaining size is even.
The C loop carries the buffer size `b`; here `b = 2 ^ (12 - fuel)` and the
fuel (12 at the top call) only turns the loop into structural recursion:
when the fuel runs out the buffer has reached 4096 blocks and the C loop
would stop as well. -/
def clearBufferLoop : Nat → Nat → Nat → Nat
  | 0, _, b => b
  | fuel + 1, n, b =>
      if b < 4096 ∧ n % 2 = 0 then clearBufferLoop fuel (n / 2) (b * 2) else b

/-- The chunk size chosen by `clearPartition` for a partition of `size`
blocks (vdoConfig.c lines 174-179). -/
def computeBufferBlocks (size : Nat) : Nat := clearBufferLoop 12 size 1

/-- The write loop of `clearPartition` (vdoConfig.c lines 188-192): write
zero chunks of `B` blocks starting at `pbn`, stopping at the first failed
write.  `chunks` is the iteration count `ceil(size / B)` of the C loop. -/
def clearLoop (L : Layer) (B : Nat) (zeroBuf : List Nat) :
    Nat → Nat → DevState → Except VDOErr Unit × DevState
  | 0, _, s => (Except.ok (), s)
  | chunks + 1, pbn, s =>
      andThen (layerWrite L pbn B zeroBuf s) fun _ s1 =>
        clearLoop L B zeroBuf chunks (pbn + B) s1

/-- Shallow embedding of `clearPartition` (vdoConfig.c lines 166-196). -/
def clearPartition (L : Layer) (layout : VdoLayout) (id : PartitionID) (s : DevState) :
    Except VDOErr Unit × DevState :=
  let part := get_vdo_partition layout id
  let size := part.size
  let start := part.offset
  let bufferBlocks := computeBufferBlocks size
  andThen (layerAllocate L s) fun _ s1 =>
    clearLoop L bufferBlocks (List.replicate (bufferBlocks * VDO_BLOCK_SIZE) 0)
      (ceilDiv size bufferBlocks) start s1

/-! ## Volume geometry (volumeGeometry.c is not part of this snapshot)

The geometry block layout follows the external-interface section of the
spec: magic at 0, header at 8, release version at 24, CRC-32C at 28, nonce
at 32, UUID at 40, then the two-entry partition table and the index
configuration, zero-filled to the 4096-byte block. -/

/-- The eight bytes of the magic string dmvdo001. -/
def GEOMETRY_MAGIC : List Nat := [100, 109, 118, 100, 111, 48, 48, 49]

def GEOMETRY_BLOCK_HEADER_ID : Nat := 5

def GEOMETRY_MAJOR_VERSION : Nat := 5

def GEOMETRY_MINOR_VERSION : Nat := 0

/-- Modelled from the spec: the release version number recorded on disk is a
constant of the release table; its exact value is not fixed by the sources
in this snapshot. -/
def CURRENT_RELEASE_VERSION : Nat := 133524

/-- Modelled from the spec: the UDS memory-class codes are distinguished
constants outside the small-integer gigabyte range (uds.h is not part of
this snapshot; representative values). -/
def UDS_MEMORY_CONFIG_256MB : Nat := 0xFFFFFF00

def UDS_MEMORY_CONFIG_512MB : Nat := 0xFFFFFE00

def UDS_MEMORY_CONFIG_768MB : Nat := 0xFFFFFD00

structure IndexConfig where
  mem : Nat
  checkpointFrequency : Nat
  sparse : Bool
deriving DecidableEq

structure VolumeGeometry where
  nonce : Nat
  uuid : List Nat
  indexLength : Nat
  indexConfig : IndexConfig
deriving DecidableEq

/-- The data region starts right after the geometry block (PBN 0) and the
dedup-index region (PBN 1 .. indexLength). -/
def get_data_region_offset (g : VolumeGeometry) : Nat := 1 + g.indexLength

/-- Modelled from the spec: the dedup-index length in blocks is a tabulated
constant of the memory class and the sparse flag (volumeGeometry.c /
indexLayout are not part of this snapshot; representative positive values,
as every memory class reserves at least one block). -/
def computeIndexBlocks (ic : IndexConfig) : Nat :=
  let base :=
    if ic.mem = UDS_MEMORY_CONFIG_256MB then 2
    else if ic.mem = UDS_MEMORY_CONFIG_512MB then 4
    else if ic.mem = UDS_MEMORY_CONFIG_768MB then 6
    else 8 * ic.mem
  (if ic.sparse then 10 * base else base) + 1

/-- Zero-pad a byte list on the right up to `len` bytes. -/
def padTo (len : Nat) (l : List Nat) : List Nat := l ++ List.replicate (len - l.length) 0

/-- The geometry block bytes from offset 32 on: nonce, UUID, the two-entry
partition table (id, start, length for the index region and the data
region) and the index configuration, zero-filled to the end of the block. -/
def geometryTail (g : VolumeGeometry) : List Nat :=
  encodeLE 8 g.nonce
  ++ (g.uuid.map fun b => b % 256)
  ++ encodeLE 4 0
  ++ encodeLE 8 1
  ++ encodeLE 8 g.indexLength
  ++ encodeLE 4 1
  ++ encodeLE 8 (1 + g.indexLength)
  ++ encodeLE 8 0
  ++ encodeLE 4 g.indexConfig.mem
  ++ encodeLE 4 g.indexConfig.checkpointFrequency
  ++ [if g.indexConfig.sparse then 1 else 0]

/-- Modelled from the spec: the encoded volume-geometry block (one 4096-byte
block): magic, header, release version, CRC-32C over the bytes that follow
the checksum field, then the tail of section 6 of the spec. -/
def encodeVolumeGeometry (g : VolumeGeometry) : List Nat :=
  let tail := padTo 4064 (geometryTail g)
  GEOMETRY_MAGIC
  ++ encodeLE 4 GEOMETRY_BLOCK_HEADER_ID
  ++ encodeLE 4 GEOMETRY_MAJOR_VERSION
  ++ encodeLE 4 GEOMETRY_MINOR_VERSION
  ++ encodeLE 4 VDO_BLOCK_SIZE
  ++ encodeLE 4 CURRENT_RELEASE_VERSION
  ++ encodeLE 4 (crc32c tail)
  ++ tail

/-- The little-endian value of the `w` bytes at offset `off` of a block. -/
def sliceNat (b : List Nat) (off w : Nat) : Nat := decodeLE ((b.drop off).take w)

/-- Modelled from the spec: `load_geometry` validation and decoding of the
block at PBN 0 (volumeGeometry.c is not part of this snapshot).  Checks, in
order: magic, header id, header version, release version, CRC, and that the
data-region offset is positive and one past the index region. -/
def loadVolumeGeometryBytes (b : List Nat) : Except VDOErr VolumeGeometry :=
  if b.take 8 ≠ GEOMETRY_MAGIC then Except.error VDOErr.badMagic
  else if sliceNat b 8 4 ≠ GEOMETRY_BLOCK_HEADER_ID then Except.error VDOErr.incorrectComponent
  else if sliceNat b 12 4 ≠ GEOMETRY_MAJOR_VERSION then Except.error VDOErr.unsupportedVersion
  else if GEOMETRY_MINOR_VERSION < sliceNat b 16 4 then Except.error VDOErr.unsupportedVersion
  else if sliceNat b 24 4 ≠ CURRENT_RELEASE_VERSION then Except.error VDOErr.unsupportedVersion
  else if sliceNat b 28 4 ≠ crc32c (b.drop 32) then Except.error VDOErr.badChecksum
  else
    let indexLength := sliceNat b 68 8
    let dataOffset := sliceNat b 80 8
    if dataOffset = 0 ∨ dataOffset ≠ 1 + indexLength then Except.error VDOErr.corrupt
    else
      Except.ok
        { nonce := sliceNat b 32 8
          uuid := (b.drop 40).take 16
          indexLength := indexLength
          indexConfig :=
            { mem := sliceNat b 96 4
              checkpointFrequency := sliceNat b 100 4
              sparse := sliceNat b 104 1 != 0 } }

/-! ## The super block (superBlock.c is not part of this snapshot) -/

/-- Modelled constant: the super-block component id of the codec header. -/
def SUPER_BLOCK_ID : Nat := 12

def SUPER_BLOCK_MAJOR_VERSION : Nat := 12

def SUPER_BLOCK_MINOR_VERSION : Nat := 0

/-- The decoded super-block payload next to the one-byte state: the VDO
component (nonce, config, recovery counts), the recovery-journal state and
the slab-depot state of the data model section of the spec. -/
structure SuperBlockContents where
  nonce : Nat
  logicalBlocks : Nat
  physicalBlocks : Nat
  slabSize : Nat
  recoveryJournalSize : Nat
  slabJournalBlocks : Nat
  completeRecoveries : Nat
  readOnlyRecoveries : Nat
  slabCount : Nat
  depotFirstBlock : Nat
  journalHead : Nat
  journalTail : Nat
deriving DecidableEq

/-- The unpadded super-block payload: release version, recovery-journal
state, slab-depot state, then the VDO component (one-byte state, nonce,
config, recovery counts).  All multi-byte fields are little-endian u64. -/
def superBlockPayloadCore (st : VDOState) (c : SuperBlockContents) : List Nat :=
  encodeLE 4 CURRENT_RELEASE_VERSION
  ++ encodeLE 8 c.journalHead
  ++ encodeLE 8 c.journalTail
  ++ encodeLE 8 c.slabCount
  ++ encodeLE 8 c.depotFirstBlock
  ++ [stateToByte st]
  ++ encodeLE 8 c.nonce
  ++ encodeLE 8 c.logicalBlocks
  ++ encodeLE 8 c.physicalBlocks
  ++ encodeLE 8 c.slabSize
  ++ encodeLE 8 c.recoveryJournalSize
  ++ encodeLE 8 c.slabJournalBlocks
  ++ encodeLE 8 c.completeRecoveries
  ++ encodeLE 8 c.readOnlyRecoveries

/-- Modelled from the spec: the encoded super block (one 4096-byte block):
a 16-byte codec header, the CRC-32C over the payload, then the payload
zero-filled to the end of the block (section 4.9 of the spec; superBlock.c
is not part of this snapshot). -/
def encodeSuperBlock (st : VDOState) (c : SuperBlockContents) : List Nat :=
  let payload := padTo 4076 (superBlockPayloadCore st c)
  encodeLE 4 SUPER_BLOCK_ID
  ++ encodeLE 4 SUPER_BLOCK_MAJOR_VERSION
  ++ encodeLE 4 SUPER_BLOCK_MINOR_VERSION
  ++ encodeLE 4 VDO_BLOCK_SIZE
  ++ encodeLE 4 (crc32c payload)
  ++ payload

/-- Byte offset of the one-byte state field inside the encoded super block
(16-byte header, 4-byte CRC, then 36 payload bytes before the state). -/
def SUPER_BLOCK_STATE_OFFSET : Nat := 56

/-- Byte offset of the 4-byte CRC field inside the encoded super block. -/
def SUPER_BLOCK_CRC_OFFSET : Nat := 16

/-- Modelled from the spec: `load_super_block` validation and decoding
(strict version gate, CRC check) followed by the component decode
(superBlock.c is not part of this snapshot). -/
def loadSuperBlockBytes (b : List Nat) : Except VDOErr (VDOState × SuperBlockContents) :=
  if sliceNat b 0 4 ≠ SUPER_BLOCK_ID then Except.error VDOErr.badMagic
  else if sliceNat b 4 4 ≠ SUPER_BLOCK_MAJOR_VERSION then Except.error VDOErr.unsupportedVersion
  else if sliceNat b 8 4 ≠ SUPER_BLOCK_MINOR_VERSION then Except.error VDOErr.unsupportedVersion
  else if sliceNat b 20 4 ≠ CURRENT_RELEASE_VERSION then Except.error VDOErr.unsupportedVersion
  else if sliceNat b 16 4 ≠ crc32c (b.drop 20) then Except.error VDOErr.badChecksum
  else
    match byteToState (sliceNat b 56 1) with
    | none => Except.error VDOErr.corrupt
    | some st =>
        Except.ok (st,
          { nonce := sliceNat b 57 8
            logicalBlocks := sliceNat b 65 8
            physicalBlocks := sliceNat b 73 8
            slabSize := sliceNat b 81 8
            recoveryJournalSize := sliceNat b 89 8
            slabJournalBlocks := sliceNat b 97 8
            completeRecoveries := sliceNat b 105 8
            readOnlyRecoveries := sliceNat b 113 8
            slabCount := sliceNat b 40 8
            depotFirstBlock := sliceNat b 48 8
            journalHead := sliceNat b 24 8
            journalTail := sliceNat b 32 8 })

/-! ## The format driver (vdoConfig.c) -/

structure VDOConfig where
  logicalBlocks : Nat
  physicalBlocks : Nat
  slabSize : Nat
  recoveryJournalSize : Nat
  slabJournalBlocks : Nat
deriving DecidableEq

/-- Modelled from the spec: `validateVDOConfig` checks the configuration
against the layer block count (the function body is not part of this
snapshot): the stated physical size must match the device and be positive. -/
def validateVDOConfig (cfg : VDOConfig) (blockCount : Nat) : Except VDOErr Unit :=
  if cfg.physicalBlocks = blockCount ∧ 0 < cfg.physicalBlocks then Except.ok ()
  else Except.error VDOErr.outOfRange

/-- Modelled from the spec: `get_slab_summary_size(VDO_BLOCK_SIZE)` is a
fixed partition size (slabSummary.c is not part of this snapshot). -/
def get_slab_summary_size : Nat := 64

/-- Modelled from the spec: `make_vdo_layout` carves the four partitions,
in the declared order, out of `[startingOffset, physicalBlocks)`, with the
block-allocator partition taking everything not claimed by the three
fixed-size partitions (vdoLayout.c is not part of this snapshot). -/
def make_vdo_layout (physicalBlocks startingOffset blockMapBlocks journalBlocks
    summaryBlocks : Nat) : Except VDOErr VdoLayout :=
  if physicalBlocks ≤ startingOffset then Except.error VDOErr.outOfRange
  else
    let remaining := physicalBlocks - startingOffset
    if remaining < blockMapBlocks + journalBlocks + summaryBlocks + 1 then
      Except.error VDOErr.outOfRange
    else
      let allocatorBlocks := remaining - blockMapBlocks - journalBlocks - summaryBlocks
      Except.ok
        { blockMapPart := ⟨startingOffset, blockMapBlocks⟩
          blockAllocatorPart := ⟨startingOffset + blockMapBlocks, allocatorBlocks⟩
          recoveryJournalPart :=
            ⟨startingOffset + blockMapBlocks + allocatorBlocks, journalBlocks⟩
          slabSummaryPart :=
            ⟨startingOffset + blockMapBlocks + allocatorBlocks + journalBlocks,
              summaryBlocks⟩ }

/-- Shallow embedding of `makeVDOLayoutFromConfig` (vdoConfig.c lines
47-63). -/
def makeVDOLayoutFromConfig (cfg : VDOConfig) (startingOffset : Nat) :
    Except VDOErr VdoLayout :=
  make_vdo_layout cfg.physicalBlocks startingOffset DEFAULT_BLOCK_MAP_TREE_ROOT_COUNT
    cfg.recoveryJournalSize get_slab_summary_size

structure SlabConfig where
  slabBlocks : Nat
  dataBlocks : Nat
  referenceCountBlocks : Nat
  slabJournalBlocks : Nat
deriving DecidableEq

def isPowerOfTwo (n : Nat) : Bool := (n != 0) && (n &&& (n - 1) == 0)

/-- Modelled from the spec: the minimum slab-journal size; the exact value
comes from the release table, which is not part of this snapshot. -/
def minimum_slab_journal_blocks : Nat := 2

/-- Modelled from the spec: `configure_slab` (section 4.5; slab.c is not
part of this snapshot): the slab size must be a power of two in the
supported range, the journal must be at least the minimum and below half
the slab, the tail holds one reference-count byte per slab block, and at
least one data block must remain. -/
def configure_slab (slabSize slabJournalBlocks : Nat) : Except VDOErr SlabConfig :=
  if ¬ isPowerOfTwo slabSize then Except.error VDOErr.outOfRange
  else if slabSize < 128 ∨ 8388608 < slabSize then Except.error VDOErr.outOfRange
  else if slabJournalBlocks < minimum_slab_journal_blocks
      ∨ slabSize / 2 ≤ slabJournalBlocks then Except.error VDOErr.outOfRange
  else
    let referenceCountBlocks := ceilDiv (slabSize - slabJournalBlocks) VDO_BLOCK_SIZE
    let dataBlocks := slabSize - slabJournalBlocks - referenceCountBlocks
    if dataBlocks = 0 then Except.error VDOErr.outOfRange
    else Except.ok ⟨slabSize, dataBlocks, referenceCountBlocks, slabJournalBlocks⟩

/-- Modelled from the spec: the depot holds `depotSize / slabSize` whole
slabs (slabDepot.c is not part of this snapshot). -/
def calculate_slab_count (depotSize slabSize : Nat) : Nat := depotSize / slabSize

/-- The in-memory VDO assembled by `configureVDO`, carrying what the later
steps of the format need. -/
structure VDOInfo where
  config : VDOConfig
  layout : VdoLayout
  slabConfig : SlabConfig
  slabCount : Nat
  nonce : Nat
  firstBlockOffset : Nat
  state : VDOState
deriving DecidableEq

/-- Shallow embedding of `configureVDO` (vdoConfig.c lines 72-140): build
the layout one block past the data-region origin, construct the recovery
journal, slab config, depot, block map and super block (the in-memory
constructors can fail only by allocation, driven by the allocation oracle;
the depot fails when the allocator partition holds no whole slab), derive
the logical capacity when the configuration leaves it zero, and set the
state to NEW. -/
def configureVDO (L : Layer) (cfg : VDOConfig) (nonce firstBlockOffset : Nat)
    (s : DevState) : Except VDOErr VDOInfo × DevState :=
  exceptStep (makeVDOLayoutFromConfig cfg (firstBlockOffset + 1)) s fun layout =>
    andThen (layerAllocate L s) fun _ s1 =>
      exceptStep (configure_slab cfg.slabSize cfg.slabJournalBlocks) s1 fun slabConfig =>
        andThen (layerAllocate L s1) fun _ s2 =>
          let depotPartition := get_vdo_partition layout PartitionID.blockAllocator
          let slabCount := calculate_slab_count depotPartition.size cfg.slabSize
          if slabCount = 0 then (Except.error VDOErr.outOfRange, s2)
          else
            let logicalBlocks :=
              if cfg.logicalBlocks = 0 then
                deriveLogicalBlocksWhenZero (slabConfig.dataBlocks * slabCount)
              else cfg.logicalBlocks
            andThen (layerAllocate L s2) fun _ s3 =>
            andThen (layerAllocate L s3) fun _ s4 =>
              (Except.ok
                { config := { cfg with logicalBlocks := logicalBlocks }
                  layout := layout
                  slabConfig := slabConfig
                  slabCount := slabCount
                  nonce := nonce
                  firstBlockOffset := firstBlockOffset
                  state := VDOState.vdoNew }, s4)

/-- The super-block contents serialised for a freshly formatted VDO: fresh
recovery-journal state (head = tail = 1), the slab-depot summary, and the
VDO component with zero recovery counts. -/
def superBlockContentsOf (vdo : VDOInfo) : SuperBlockContents :=
  { nonce := vdo.nonce
    logicalBlocks := vdo.config.logicalBlocks
    physicalBlocks := vdo.config.physicalBlocks
    slabSize := vdo.config.slabSize
    recoveryJournalSize := vdo.config.recoveryJournalSize
    slabJournalBlocks := vdo.config.slabJournalBlocks
    completeRecoveries := 0
    readOnlyRecoveries := 0
    slabCount := vdo.slabCount
    depotFirstBlock := (get_vdo_partition vdo.layout PartitionID.blockAllocator).offset
    journalHead := 1
    journalTail := 1 }

/-- Modelled from the spec: `saveVDOComponents` encodes the super block and
writes it as one block at the data-region origin (superBlock.c is not part
of this snapshot). -/
def saveVDOComponents (L : Layer) (vdo : VDOInfo) (s : DevState) :
    Except VDOErr Unit × DevState :=
  layerWrite L vdo.firstBlockOffset 1
    (encodeSuperBlock vdo.state (superBlockContentsOf vdo)) s

/-- Modelled from the spec: `build_geometry` assembles the volume geometry
in memory; the index region starts at PBN 1 with its tabulated length and
the data region follows it (volumeGeometry.c is not part of this
snapshot). -/
def build_geometry (nonce : Nat) (uuid : List Nat) (ic : IndexConfig) : VolumeGeometry :=
  { nonce := nonce
    uuid := uuid
    indexLength := computeIndexBlocks ic
    indexConfig := ic }

/-- Modelled from the spec: `clear_volume_geometry` writes one zero block
at PBN 0 (volumeGeometry.c is not part of this snapshot). -/
def clear_volume_geometry (L : Layer) (s : DevState) : Except VDOErr Unit × DevState :=
  layerWrite L 0 1 (List.replicate VDO_BLOCK_SIZE 0) s

/-- Modelled from the spec: `write_volume_geometry` writes the encoded
geometry as one block at PBN 0 (volumeGeometry.c is not part of this
snapshot). -/
def write_volume_geometry (L : Layer) (g : VolumeGeometry) (s : DevState) :
    Except VDOErr Unit × DevState :=
  layerWrite L 0 1 (encodeVolumeGeometry g) s

/-- Shallow embedding of `makeAndWriteVDO` (vdoConfig.c lines 205-246):
construct the VDO in memory (`makeVDO` can fail only by allocation), clear
the block-map partition, clear the recovery-journal partition, then write
the super block. -/
def makeAndWriteVDO (L : Layer) (cfg : VDOConfig) (g : VolumeGeometry) (s : DevState) :
    Except VDOErr Unit × DevState :=
  andThen (layerAllocate L s) fun _ s1 =>
  andThen (configureVDO L cfg g.nonce (get_data_region_offset g) s1) fun vdo s2 =>
  andThen (clearPartition L vdo.layout PartitionID.blockMap s2) fun _ s3 =>
  andThen (clearPartition L vdo.layout PartitionID.recoveryJournal s3) fun _ s4 =>
  saveVDOComponents L vdo s4

/-- Shallow embedding of `formatVDOWithNonce` (vdoConfig.c lines 249-283):
register status codes (a process-wide registration, modelled as success),
validate the configuration, build the geometry in memory, zero PBN 0,
construct and write the VDO metadata, and only then write the geometry. -/
def formatVDOWithNonce (L : Layer) (cfg : VDOConfig) (ic : IndexConfig)
    (nonce : Nat) (uuid : List Nat) (s : DevState) : Except VDOErr Unit × DevState :=
  exceptStep (validateVDOConfig cfg L.blockCount) s fun _ =>
    let geometry := build_geometry nonce uuid ic
    andThen (clear_volume_geometry L s) fun _ s1 =>
    andThen (makeAndWriteVDO L cfg geometry s1) fun _ s2 =>
    write_volume_geometry L geometry s2

/-! ## Reconfiguration (vdoConfig.c lines 285-363) -/

/-- Shallow embedding of `prepareSuperBlock` (vdoConfig.c lines 285-314):
load the geometry from PBN 0, then load and decode the super block at the
data-region origin (the version check of `validateVDOVersion` and the
component decode are folded into the super-block load). -/
def prepareSuperBlock (L : Layer) (s : DevState) :
    Except VDOErr (Nat × VDOState × SuperBlockContents) × DevState :=
  andThen (layerRead L 0 s) fun block0 s1 =>
    exceptStep (loadVolumeGeometryBytes block0) s1 fun g =>
      let pbn := get_data_region_offset g
      andThen (layerRead L pbn s1) fun sbBlock s2 =>
        exceptStep (loadSuperBlockBytes sbBlock) s2 fun stc =>
          (Except.ok (pbn, stc.1, stc.2), s2)

/-- Shallow embedding of `updateVDOSuperBlockState` (vdoConfig.c lines
316-351): construct the VDO shell (`makeVDO`, fallible only by
allocation), load geometry and super block, refuse to proceed when
read-only mode is required but not present, otherwise store the new state
and write the re-encoded super block back. -/
def updateVDOSuperBlockState (L : Layer) (requireReadOnly : Bool)
    (newState : VDOState) (s : DevState) : Except VDOErr Unit × DevState :=
  andThen (layerAllocate L s) fun _ s1 =>
  andThen (prepareSuperBlock L s1) fun info s2 =>
    if requireReadOnly ∧ info.2.1 ≠ VDOState.readOnlyMode then
      (Except.error VDOErr.notReadOnly, s2)
    else
      layerWrite L info.1 1 (encodeSuperBlock newState info.2.2) s2

/-- Shallow embedding of `forceVDORebuild` (vdoConfig.c lines 353-357). -/
def forceVDORebuild (L : Layer) (s : DevState) : Except VDOErr Unit × DevState :=
  updateVDOSuperBlockState L true VDOState.forceRebuild s

/-- Shallow embedding of `setVDOReadOnlyMode` (vdoConfig.c lines 359-363). -/
def setVDOReadOnlyMode (L : Layer) (s : DevState) : Except VDOErr Unit × DevState :=
  updateVDOSuperBlockState L false VDOState.readOnlyMode s

/-! ## Auxiliary definitions for the statements of the claims -/

/-- A fresh device state over given disk contents: empty trace, all call
counters zero. -/
def mkDevState (disk : Nat → List Nat) : DevState :=
  { disk := disk, trace := [], writeCalls := 0, readCalls := 0, allocCalls := 0 }

/-- One zero block, as written by the geometry clear. -/
def zeroBlockBytes : List Nat := List.replicate VDO_BLOCK_SIZE 0

/-- The successful write events a partition clear produces: `chunks` chunks
of `B` zero blocks starting at `start`. -/
def clearChunkEvents (start B chunks : Nat) : List WriteEvent :=
  (List.range chunks).map fun i =>
    ⟨start + i * B, B, List.replicate (B * VDO_BLOCK_SIZE) 0, true⟩

/-- The successful write events of clearing one partition in full. -/
def partitionClearEvents (part : Partition) : List WriteEvent :=
  clearChunkEvents part.offset (computeBufferBlocks part.size)
    (ceilDiv part.size (computeBufferBlocks part.size))

/-- How many of the attempted writes in a trace cover block `p`. -/
def coveredCount (t : List WriteEvent) (p : Nat) : Nat :=
  (t.filter fun e => e.pbn ≤ p && p < e.pbn + e.count).length

/-- Well-formedness of an in-memory geometry: every encoded field fits its
on-disk width and the UUID is 16 bytes of bytes. -/
def WFGeometry (g : VolumeGeometry) : Prop :=
  g.nonce < 2 ^ 64
  ∧ g.uuid.length = 16
  ∧ (∀ b ∈ g.uuid, b < 256)
  ∧ g.indexLength + 1 < 2 ^ 64
  ∧ g.indexConfig.mem < 2 ^ 32
  ∧ g.indexConfig.checkpointFrequency < 2 ^ 32

/-- Every super-block field fits its on-disk 64-bit width. -/
def ContentsInRange (c : SuperBlockContents) : Prop :=
  c.nonce < 2 ^ 64
  ∧ c.logicalBlocks < 2 ^ 64
  ∧ c.physicalBlocks < 2 ^ 64
  ∧ c.slabSize < 2 ^ 64
  ∧ c.recoveryJournalSize < 2 ^ 64
  ∧ c.slabJournalBlocks < 2 ^ 64
  ∧ c.completeRecoveries < 2 ^ 64
  ∧ c.readOnlyRecoveries < 2 ^ 64
  ∧ c.slabCount < 2 ^ 64
  ∧ c.depotFirstBlock < 2 ^ 64
  ∧ c.journalHead < 2 ^ 64
  ∧ c.journalTail < 2 ^ 64

/-- A device holding a loadable VDO: a well-formed geometry at PBN 0 and a
valid super block at the data-region origin. -/
def ValidVDODevice (disk : Nat → List Nat) (g : VolumeGeometry) (st : VDOState)
    (c : SuperBlockContents) : Prop :=
  WFGeometry g
  ∧ ContentsInRange c
  ∧ disk 0 = encodeVolumeGeometry g
  ∧ disk (get_data_region_offset g) = encodeSuperBlock st c


/-! ## Concrete fixtures used to instantiate the claims on a small device -/

/-- A 600-block device whose layer never fails. -/
def sampleLayer : Layer := ⟨600, fun _ => true, fun _ => true, fun _ => true⟩

/-- The same device with an IO error injected into the second write call
(the first block-map clear chunk during a format). -/
def sampleLayerFailSecond : Layer := ⟨600, fun i => i == 0, fun _ => true, fun _ => true⟩

/-- A small but well-formed configuration for the 600-block device. -/
def sampleConfig : VDOConfig := ⟨50, 600, 128, 8, 2⟩

def sampleIndexConfig : IndexConfig := ⟨UDS_MEMORY_CONFIG_256MB, 0, false⟩

def sampleUUID : List Nat := List.replicate 16 9

/-- The layout the sample format produces: block map at 5, allocator at 65,
recovery journal at 528, slab summary at 536. -/
def sampleLayout : VdoLayout :=
  { blockMapPart := ⟨5, 60⟩
    blockAllocatorPart := ⟨65, 463⟩
    recoveryJournalPart := ⟨528, 8⟩
    slabSummaryPart := ⟨536, 64⟩ }

/-- A blank disk. -/
def blankDisk : Nat → List Nat := fun _ => []

/-- The geometry the sample format writes: nonce 7, the sample UUID, a
3-block dedup index. -/
def sampleGeometry : VolumeGeometry := build_geometry 7 sampleUUID sampleIndexConfig

/-- Super-block contents matching the sample format. -/
def sampleContents : SuperBlockContents :=
  { nonce := 7
    logicalBlocks := 50
    physicalBlocks := 600
    slabSize := 128
    recoveryJournalSize := 8
    slabJournalBlocks := 2
    completeRecoveries := 0
    readOnlyRecoveries := 0
    slabCount := 3
    depotFirstBlock := 65
    journalHead := 1
    journalTail := 1 }

/-- A device holding the sample geometry at PBN 0 and a read-only-mode
super block at the data-region origin (PBN 4). -/
def sampleDiskRO : Nat → List Nat := fun p =>
  if p = 0 then encodeVolumeGeometry sampleGeometry
  else if p = 4 then encodeSuperBlock VDOState.readOnlyMode sampleContents
  else []

/-- The same device but with a clean (NEW) super block. -/
def sampleDiskNew : Nat → List Nat := fun p =>
  if p = 0 then encodeVolumeGeometry sampleGeometry
  else if p = 4 then encodeSuperBlock VDOState.vdoNew sampleContents
  else []


/-! ## Theorems -/

theorem ceilDiv_mono {a b w : Nat} (h : a ≤ b) : ceilDiv a w ≤ ceilDiv b w := by
  unfold ceilDiv
  exact Nat.div_le_div_right (by omega)

theorem ceilDiv_zero_left (w : Nat) : ceilDiv 0 w = 0 := by
  unfold ceilDiv
  cases w with
  | zero => rfl
  | succ w =>
      have hw : 0 + (w + 1) - 1 = w := by omega
      rw [hw]
      exact Nat.div_eq_of_lt (by omega)

@[simp] theorem encodeLE_length (width n : Nat) : (encodeLE width n).length = width := by
  induction width generalizing n with
  | zero => rfl
  | succ w ih => simp [encodeLE, ih]

theorem decodeLE_encodeLE (width n : Nat) :
    decodeLE (encodeLE width n) = n % 256 ^ width := by
  induction width generalizing n with
  | zero => simp [encodeLE, decodeLE, Nat.mod_one]
  | succ w ih =>
      simp only [encodeLE, decodeLE, ih]
      rw [pow_succ, mul_comm (256 ^ w) 256, Nat.mod_mul]
      omega

theorem decodeLE_encodeLE_of_lt {width n : Nat} (h : n < 256 ^ width) :
    decodeLE (encodeLE width n) = n := by
  rw [decodeLE_encodeLE, Nat.mod_eq_of_lt h]

theorem crcShift_lt {k c : Nat} (h : c < 2 ^ 32) : crcShift k c < 2 ^ 32 := by
  induction k generalizing c with
  | zero => simpa [crcShift] using h
  | succ k ih =>
      simp only [crcShift]
      apply ih
      have hdiv : c / 2 < 2 ^ 32 := lt_of_le_of_lt (Nat.div_le_self c 2) h
      split
      · exact Nat.xor_lt_two_pow hdiv (by norm_num [CRC32C_POLY_REFLECTED])
      · exact hdiv

theorem crc32cUpdate_lt {crc byte : Nat} (h : crc < 2 ^ 32) :
    crc32cUpdate crc byte < 2 ^ 32 := by
  unfold crc32cUpdate
  exact crcShift_lt (Nat.xor_lt_two_pow h
    (lt_of_lt_of_le (Nat.mod_lt _ (by norm_num)) (by norm_num)))

theorem crc32c_foldl_lt (bytes : List Nat) {acc : Nat} (h : acc < 2 ^ 32) :
    bytes.foldl crc32cUpdate acc < 2 ^ 32 := by
  induction bytes generalizing acc with
  | nil => simpa using h
  | cons b rest ih => exact ih (crc32cUpdate_lt h)

theorem crc32c_lt (bytes : List Nat) : crc32c bytes < 2 ^ 32 := by
  unfold crc32c
  exact Nat.xor_lt_two_pow (crc32c_foldl_lt bytes (by norm_num)) (by norm_num)

theorem byteToState_stateToByte (st : VDOState) : byteToState (stateToByte st) = some st := by
  cases st <;> rfl

theorem stateToByte_lt (st : VDOState) : stateToByte st < 256 := by
  cases st <;> simp [stateToByte]

/-! In the zero-size case the C code stores NULL through the out pointer and
returns UDS_SUCCESS without calling malloc; the model renders the stored NULL
as `buffer = none` next to `status = UDS_SUCCESS`. -/
/-- C10: a zero-byte allocation request with a non-null out pointer returns
UDS_SUCCESS and stores a null buffer pointer; a null out pointer argument
returns UDS_INVALID_ARGUMENT regardless of size; and every successful
non-zero allocation is zero-filled. -/
theorem claim_uds_allocate_memory (env : AllocEnv) (size align : Nat) (what : String) :
    uds_allocate_memory env 0 align what false
        = { status := UDS_SUCCESS, buffer := none }
    ∧ (uds_allocate_memory env size align what true).status = UDS_INVALID_ARGUMENT
    ∧ (∀ buf : List Nat, size ≠ 0 →
        (uds_allocate_memory env size align what false).buffer = some buf →
        (uds_allocate_memory env size align what false).status = UDS_SUCCESS
          ∧ ∀ b ∈ buf, b = 0) := by
  refine ⟨?_, ?_, ?_⟩
  · simp [uds_allocate_memory]
  · simp [uds_allocate_memory]
  · intro buf hsz hbuf
    unfold uds_allocate_memory at hbuf ⊢
    rw [if_neg Bool.false_ne_true, if_neg hsz] at hbuf ⊢
    by_cases halign : DEFAULT_MALLOC_ALIGNMENT < align
    · rw [if_pos halign] at hbuf ⊢
      by_cases hres : env.memalignResult ≠ 0
      · rw [if_pos hres] at hbuf
        simp at hbuf
      · rw [if_neg hres] at hbuf ⊢
        simp only [Option.some.injEq] at hbuf
        subst hbuf
        exact ⟨rfl, fun b hb => List.eq_of_mem_replicate hb⟩
    · rw [if_neg halign] at hbuf ⊢
      by_cases hok : env.mallocOk
      · rw [if_pos hok] at hbuf ⊢
        simp only [Option.some.injEq] at hbuf
        subst hbuf
        exact ⟨rfl, fun b hb => List.eq_of_mem_replicate hb⟩
      · rw [if_neg hok] at hbuf
        simp at hbuf

theorem claim_uds_allocate_memory_witness :
    (uds_allocate_memory ⟨0, true, 12⟩ 0 32 (String.mk []) false
        = { status := UDS_SUCCESS, buffer := none })
    ∧ (uds_allocate_memory ⟨0, true, 12⟩ 5 32 (String.mk []) true).status
        = UDS_INVALID_ARGUMENT
    ∧ ((uds_allocate_memory ⟨0, true, 12⟩ 5 32 (String.mk []) false).status = UDS_SUCCESS
        ∧ ∀ b ∈ List.replicate 5 0, b = 0) :=
  ⟨(claim_uds_allocate_memory ⟨0, true, 12⟩ 5 32 (String.mk [])).1,
   (claim_uds_allocate_memory ⟨0, true, 12⟩ 5 32 (String.mk [])).2.1,
   (claim_uds_allocate_memory ⟨0, true, 12⟩ 5 32 (String.mk [])).2.2
     (List.replicate 5 0) (by decide) (by decide)⟩

/-! ## Block map / forest sizing

`computeBlockMapPageCount` is declared in `blockMapInternals.h` (in this
repository) but implemented in `blockMap.c`, which is not part of this
snapshot; likewise `compute_forest_size` lives in the missing `forest.c`.
Both are modelled from the spec (section 4.6): leaf pages are
ceil(entries / 812); interior pages are obtained per root by folding the
per-root leaf count up a tree of fan-out 812 until at most one page remains
per root, summing the levels, across all roots. -/
theorem ceilDiv_lt_self {l : Nat} (h : 1 < l) : ceilDiv l BLOCK_MAP_ENTRIES_PER_PAGE < l := by
  simp only [ceilDiv, BLOCK_MAP_ENTRIES_PER_PAGE]
  omega

theorem interiorPagesGo_congr :
    ∀ f1 f2 l : Nat, l ≤ f1 → l ≤ f2 → interiorPagesGo f1 l = interiorPagesGo f2 l := by
  intro f1
  induction f1 using Nat.strong_induction_on with
  | _ f1 ih =>
    intro f2 l h1 h2
    match f1, f2 with
    | 0, 0 => rfl
    | 0, f2 + 1 =>
        have hl : l = 0 := by omega
        subst hl
        rfl
    | f1 + 1, 0 =>
        have hl : l = 0 := by omega
        subst hl
        rfl
    | f1 + 1, f2 + 1 =>
        simp only [interiorPagesGo]
        by_cases hl : l ≤ 1
        · rw [if_pos hl, if_pos hl]
        · rw [if_neg hl, if_neg hl]
          have hup : ceilDiv l BLOCK_MAP_ENTRIES_PER_PAGE < l := ceilDiv_lt_self (by omega)
          exact congrArg _ (ih f1 (by omega) f2 _ (by omega) (by omega))

theorem interiorPages_of_le {l : Nat} (h : l ≤ 1) : interiorPages l = 0 := by
  have : l = 0 ∨ l = 1 := by omega
  rcases this with h0 | h1
  · subst h0; rfl
  · subst h1; rfl

theorem interiorPages_of_gt {l : Nat} (h : 1 < l) :
    interiorPages l
      = ceilDiv l BLOCK_MAP_ENTRIES_PER_PAGE
        + interiorPages (ceilDiv l BLOCK_MAP_ENTRIES_PER_PAGE) := by
  unfold interiorPages
  obtain ⟨m, rfl⟩ : ∃ m, l = m + 1 := ⟨l - 1, by omega⟩
  simp only [interiorPagesGo]
  rw [if_neg (by omega)]
  have hup : ceilDiv (m + 1) BLOCK_MAP_ENTRIES_PER_PAGE < m + 1 := ceilDiv_lt_self h
  exact congrArg _ (interiorPagesGo_congr m _ _ (by omega) (by omega))

theorem interiorPages_mono : ∀ {a b : Nat}, a ≤ b → interiorPages a ≤ interiorPages b := by
  intro a b
  induction b using Nat.strong_induction_on generalizing a with
  | _ b ih =>
    intro hab
    by_cases ha : a ≤ 1
    · rw [interiorPages_of_le ha]
      exact Nat.zero_le _
    · have hb : 1 < b := by omega
      rw [interiorPages_of_gt (by omega), interiorPages_of_gt hb]
      have hlt : ceilDiv b BLOCK_MAP_ENTRIES_PER_PAGE < b := ceilDiv_lt_self hb
      exact Nat.add_le_add (ceilDiv_mono hab) (ih _ hlt (ceilDiv_mono hab))

theorem computeBlockMapPageCount_mono {a b : Nat} (h : a ≤ b) :
    computeBlockMapPageCount a ≤ computeBlockMapPageCount b := by
  unfold computeBlockMapPageCount
  exact Nat.add_le_add (ceilDiv_mono h)
    (Nat.mul_le_mul_left _ (interiorPages_mono (ceilDiv_mono (ceilDiv_mono h))))

/-! ## Claims C5 and C6 -/
/-- C6: the block-map sizing function is monotone: for every pair of
logical-block counts with L1 ≤ L2, the page count computed for L1 is at
most the page count computed for L2. -/
theorem claim_blockMapPageCount_monotone (L1 L2 : Nat) (h : L1 ≤ L2) :
    computeBlockMapPageCount L1 ≤ computeBlockMapPageCount L2 :=
  computeBlockMapPageCount_mono h

theorem claim_blockMapPageCount_monotone_witness :
    5 ≤ 100000 ∧ computeBlockMapPageCount 5 ≤ computeBlockMapPageCount 100000 :=
  ⟨by decide, claim_blockMapPageCount_monotone 5 100000 (by decide)⟩

/-- C5 counterexample: the claim says the derived logical-block count for
`logical_blocks = 0` is the LARGEST L with L + block_map_page_count(L) ≤
data_blocks.  At data_blocks = 1000000 the code derives L = 998708, yet
L + 1 = 998709 together with its block-map pages still fits inside
1000000, so the derived count is not maximal. -/
theorem claim_deriveLogicalBlocks_not_maximal :
    deriveLogicalBlocksWhenZero 1000000 = 998708 ∧
    998709 + computeBlockMapPageCount 998709 ≤ 1000000 := by
  constructor
  · decide
  · decide

/-- C5 amended: when `config.logicalBlocks == 0`, the format derives the
logical capacity as data_blocks − forest_size(data_blocks); this derived
count always fits (L + block_map_page_count(L) ≤ data_blocks) but it is not
in general the largest such L. -/
theorem claim_deriveLogicalBlocks_fits (dataBlocks : Nat) :
    deriveLogicalBlocksWhenZero dataBlocks
      + computeBlockMapPageCount (deriveLogicalBlocksWhenZero dataBlocks) ≤ dataBlocks := by
  unfold deriveLogicalBlocksWhenZero
  have hFD : compute_forest_size dataBlocks DEFAULT_BLOCK_MAP_TREE_ROOT_COUNT
      = computeBlockMapPageCount dataBlocks := rfl
  rw [hFD]
  by_cases hc : dataBlocks ≤ computeBlockMapPageCount dataBlocks
  · have hz : dataBlocks - computeBlockMapPageCount dataBlocks = 0 := by omega
    rw [hz]
    have h0 : computeBlockMapPageCount 0 = 0 := by decide
    rw [h0]
    omega
  · have hmono := computeBlockMapPageCount_mono
      (Nat.sub_le dataBlocks (computeBlockMapPageCount dataBlocks))
    omega

theorem andThen_eq_ok {α β : Type} {r : Except VDOErr α × DevState}
    {k : α → DevState → Except VDOErr β × DevState} {a : α}
    (h : r.1 = Except.ok a) : andThen r k = k a r.2 := by
  obtain ⟨r1, r2⟩ := r
  simp only at h
  subst h
  rfl

theorem andThen_eq_error {α β : Type} {r : Except VDOErr α × DevState}
    {k : α → DevState → Except VDOErr β × DevState} {e : VDOErr}
    (h : r.1 = Except.error e) : andThen r k = (Except.error e, r.2) := by
  obtain ⟨r1, r2⟩ := r
  simp only at h
  subst h
  rfl

theorem andThen_cases {α β : Type} (r : Except VDOErr α × DevState)
    (k : α → DevState → Except VDOErr β × DevState) :
    (∃ a, r.1 = Except.ok a ∧ andThen r k = k a r.2)
    ∨ (∃ e, r.1 = Except.error e ∧ andThen r k = (Except.error e, r.2)) := by
  obtain ⟨r1, r2⟩ := r
  cases r1 with
  | ok a => exact Or.inl ⟨a, rfl, rfl⟩
  | error e => exact Or.inr ⟨e, rfl, rfl⟩

/-! ## Properties of the chunk-size computation -/
theorem clearBufferLoop_spec :
    ∀ fuel n b j, b = 2 ^ j → j + fuel = 12 →
      (∃ m, clearBufferLoop fuel n b = 2 ^ m ∧ j ≤ m ∧ m ≤ 12)
      ∧ clearBufferLoop fuel n b ∣ b * n
      ∧ ∀ k, k ≤ 12 → 2 ^ k ∣ b * n → 2 ^ k ≤ clearBufferLoop fuel n b := by
  intro fuel
  induction fuel with
  | zero =>
      intro n b j hb hj
      have hj12 : j = 12 := by omega
      subst hj12
      subst hb
      refine ⟨⟨12, rfl, le_refl 12, le_refl 12⟩, dvd_mul_right _ n, ?_⟩
      intro k hk _
      exact Nat.pow_le_pow_right (by norm_num) hk
  | succ fuel ih =>
      intro n b j hb hj
      subst hb
      simp only [clearBufferLoop]
      have hblt : 2 ^ j < 4096 := by
        have hj12 : j < 12 := by omega
        calc 2 ^ j < 2 ^ 12 := Nat.pow_lt_pow_right (by norm_num) hj12
          _ = 4096 := by norm_num
      by_cases hpar : n % 2 = 0
      · rw [if_pos ⟨hblt, hpar⟩]
        have heq : 2 ^ j * 2 * (n / 2) = 2 ^ j * n := by
          have hn : 2 * (n / 2) = n := by omega
          calc 2 ^ j * 2 * (n / 2) = 2 ^ j * (2 * (n / 2)) := by ring
            _ = 2 ^ j * n := by rw [hn]
        obtain ⟨P, D, M⟩ := ih (n / 2) (2 ^ j * 2) (j + 1) (by rw [pow_succ]) (by omega)
        rw [heq] at D M
        obtain ⟨m, hm, hm1, hm2⟩ := P
        exact ⟨⟨m, hm, by omega, hm2⟩, D, M⟩
      · rw [if_neg (by tauto)]
        refine ⟨⟨j, rfl, le_refl j, by omega⟩, dvd_mul_right _ n, ?_⟩
        intro k hk hkd
        by_cases hkj : k ≤ j
        · exact Nat.pow_le_pow_right (by norm_num) hkj
        · exfalso
          have hkk : (2 : Nat) ^ k = 2 ^ j * 2 ^ (k - j) := by
            rw [← pow_add]
            congr 1
            omega
          rw [hkk] at hkd
          have hdn : 2 ^ (k - j) ∣ n :=
            (Nat.mul_dvd_mul_iff_left (Nat.pos_pow_of_pos j (by norm_num))).mp hkd
          have h2n : 2 ∣ n := dvd_trans (dvd_pow_self 2 (by omega : k - j ≠ 0)) hdn
          omega

/-- The chunk size is a power of two, divides the partition size, is capped
at 4096 blocks, and is the largest power of two satisfying both bounds. -/
theorem computeBufferBlocks_spec (size : Nat) :
    (∃ m, computeBufferBlocks size = 2 ^ m ∧ m ≤ 12)
    ∧ computeBufferBlocks size ∣ size
    ∧ computeBufferBlocks size ≤ 4096
    ∧ ∀ k, k ≤ 12 → 2 ^ k ∣ size → 2 ^ k ≤ computeBufferBlocks size := by
  obtain ⟨⟨m, hm, _, hm12⟩, D, M⟩ := clearBufferLoop_spec 12 size 1 0 (by norm_num) (by norm_num)
  rw [one_mul] at D M
  refine ⟨⟨m, hm, hm12⟩, D, ?_, M⟩
  rw [show computeBufferBlocks size = clearBufferLoop 12 size 1 from rfl, hm]
  calc 2 ^ m ≤ 2 ^ 12 := Nat.pow_le_pow_right (by norm_num) hm12
    _ = 4096 := by norm_num

theorem computeBufferBlocks_pos (size : Nat) : 0 < computeBufferBlocks size := by
  obtain ⟨⟨m, hm, _⟩, _, _, _⟩ := computeBufferBlocks_spec size
  rw [hm]
  exact Nat.pos_pow_of_pos m (by norm_num)

theorem ceilDiv_mul_of_dvd {size B : Nat} (hB : 0 < B) (hd : B ∣ size) :
    ceilDiv size B * B = size := by
  obtain ⟨q, rfl⟩ := hd
  unfold ceilDiv
  rw [Nat.add_sub_assoc hB, Nat.mul_add_div hB, Nat.div_eq_of_lt (by omega), Nat.add_zero]
  ring

/-! ## Behaviour of the layer primitives -/

theorem layerWrite_ok {L : Layer} {pbn count : Nat} {data : List Nat} {s : DevState}
    (h : L.writeOk s.writeCalls = true) :
    layerWrite L pbn count data s =
      (Except.ok (),
        { s with
          disk := fun p =>
            if pbn ≤ p ∧ p < pbn + count then bufBlock data (p - pbn) else s.disk p,
          trace := s.trace ++ [⟨pbn, count, data, true⟩],
          writeCalls := s.writeCalls + 1 }) := by
  unfold layerWrite
  rw [if_pos h]

theorem layerWrite_fail {L : Layer} {pbn count : Nat} {data : List Nat} {s : DevState}
    (h : L.writeOk s.writeCalls = false) :
    layerWrite L pbn count data s =
      (Except.error VDOErr.ioError,
        { s with
          trace := s.trace ++ [⟨pbn, count, data, false⟩],
          writeCalls := s.writeCalls + 1 }) := by
  unfold layerWrite
  rw [if_neg (by simp [h])]

theorem layerRead_ok {L : Layer} {pbn : Nat} {s : DevState}
    (h : L.readOk s.readCalls = true) :
    layerRead L pbn s = (Except.ok (s.disk pbn), { s with readCalls := s.readCalls + 1 }) := by
  unfold layerRead
  rw [if_pos h]

theorem layerAllocate_ok {L : Layer} {s : DevState} (h : L.allocOk s.allocCalls = true) :
    layerAllocate L s = (Except.ok (), { s with allocCalls := s.allocCalls + 1 }) := by
  unfold layerAllocate
  rw [if_pos h]

theorem andThen_pair_ok {α β : Type} (a : α) (s : DevState)
    (k : α → DevState → Except VDOErr β × DevState) :
    andThen (Except.ok a, s) k = k a s := rfl

theorem andThen_pair_error {α β : Type} (e : VDOErr) (s : DevState)
    (k : α → DevState → Except VDOErr β × DevState) :
    andThen (Except.error e, s) k = (Except.error e, s) := rfl

theorem chunkEvents_succ (pbn B chunks : Nat) (zb : List Nat) :
    (List.range (chunks + 1)).map (fun i => WriteEvent.mk (pbn + i * B) B zb true)
      = WriteEvent.mk pbn B zb true
        :: (List.range chunks).map (fun i => WriteEvent.mk (pbn + B + i * B) B zb true) := by
  rw [List.range_succ_eq_map, List.map_cons, List.map_map]
  congr 1
  · simp
  · apply List.map_congr_left
    intro i _
    simp only [Function.comp]
    congr 1
    rw [Nat.succ_mul]
    ring

/-! ## Behaviour of the clear-partition write loop -/

theorem clearLoop_counters (L : Layer) (B : Nat) (zb : List Nat) :
    ∀ chunks pbn s,
      (clearLoop L B zb chunks pbn s).2.readCalls = s.readCalls
      ∧ (clearLoop L B zb chunks pbn s).2.allocCalls = s.allocCalls := by
  intro chunks
  induction chunks with
  | zero => intro pbn s; exact ⟨rfl, rfl⟩
  | succ chunks ih =>
      intro pbn s
      simp only [clearLoop]
      cases hw : L.writeOk s.writeCalls with
      | true =>
          rw [layerWrite_ok hw, andThen_pair_ok]
          exact ih (pbn + B) _
      | false =>
          rw [layerWrite_fail hw, andThen_pair_error]
          exact ⟨rfl, rfl⟩

theorem clearLoop_disk_frame (L : Layer) (B : Nat) (zb : List Nat) :
    ∀ chunks pbn s p, (p < pbn ∨ pbn + chunks * B ≤ p) →
      (clearLoop L B zb chunks pbn s).2.disk p = s.disk p := by
  intro chunks
  induction chunks with
  | zero => intro pbn s p _; rfl
  | succ chunks ih =>
      intro pbn s p hp
      have hBle : B ≤ (chunks + 1) * B := Nat.le_mul_of_pos_left B (by omega)
      have hsplit : pbn + (chunks + 1) * B = pbn + B + chunks * B := by
        rw [Nat.succ_mul]
        ring
      simp only [clearLoop]
      cases hw : L.writeOk s.writeCalls with
      | true =>
          rw [layerWrite_ok hw, andThen_pair_ok]
          rw [ih (pbn + B) _ p (by omega)]
          simp only
          rw [if_neg (by omega)]
      | false =>
          rw [layerWrite_fail hw, andThen_pair_error]

theorem clearLoop_trace_shape (L : Layer) (B : Nat) (zb : List Nat) :
    ∀ chunks pbn s, ∃ t, (clearLoop L B zb chunks pbn s).2.trace = s.trace ++ t
      ∧ ∀ e ∈ t, ∃ i, i < chunks ∧ e.pbn = pbn + i * B ∧ e.count = B ∧ e.data = zb := by
  intro chunks
  induction chunks with
  | zero =>
      intro pbn s
      exact ⟨[], by simp [clearLoop], by simp⟩
  | succ chunks ih =>
      intro pbn s
      simp only [clearLoop]
      cases hw : L.writeOk s.writeCalls with
      | true =>
          rw [layerWrite_ok hw, andThen_pair_ok]
          obtain ⟨t, ht, hmem⟩ := ih (pbn + B) _
          refine ⟨⟨pbn, B, zb, true⟩ :: t, ?_, ?_⟩
          · rw [ht]
            simp
          · intro e he
            rcases List.mem_cons.mp he with rfl | he
            · exact ⟨0, by omega, by simp, rfl, rfl⟩
            · obtain ⟨i, hi, h1, h2, h3⟩ := hmem e he
              refine ⟨i + 1, by omega, ?_, h2, h3⟩
              rw [h1, Nat.succ_mul]
              ring
      | false =>
          rw [layerWrite_fail hw, andThen_pair_error]
          refine ⟨[⟨pbn, B, zb, false⟩], by simp, ?_⟩
          intro e he
          rw [List.mem_singleton] at he
          subst he
          exact ⟨0, by omega, by simp, rfl, rfl⟩

theorem clearLoop_ok (L : Layer) (B : Nat) (zb : List Nat) :
    ∀ chunks pbn s, (∀ i, i < chunks → L.writeOk (s.writeCalls + i) = true) →
      (clearLoop L B zb chunks pbn s).1 = Except.ok ()
      ∧ (clearLoop L B zb chunks pbn s).2.trace
          = s.trace ++ (List.range chunks).map (fun i => WriteEvent.mk (pbn + i * B) B zb true)
      ∧ (clearLoop L B zb chunks pbn s).2.writeCalls = s.writeCalls + chunks
      ∧ ∀ p, pbn ≤ p → p < pbn + chunks * B →
          (clearLoop L B zb chunks pbn s).2.disk p = bufBlock zb ((p - pbn) % B) := by
  intro chunks
  induction chunks with
  | zero =>
      intro pbn s _
      refine ⟨rfl, by simp [clearLoop], rfl, ?_⟩
      intro p hp1 hp2
      omega
  | succ chunks ih =>
      intro pbn s hok
      have hw : L.writeOk s.writeCalls = true := by
        have := hok 0 (by omega)
        simpa using this
      simp only [clearLoop]
      rw [layerWrite_ok hw, andThen_pair_ok]
      set s1 : DevState :=
        { s with
          disk := fun p => if pbn ≤ p ∧ p < pbn + B then bufBlock zb (p - pbn) else s.disk p,
          trace := s.trace ++ [⟨pbn, B, zb, true⟩],
          writeCalls := s.writeCalls + 1 } with hs1
      obtain ⟨R, T, W, D⟩ := ih (pbn + B) s1 (by
        intro i hi
        have := hok (i + 1) (by omega)
        rw [hs1]
        simpa [Nat.add_assoc, Nat.add_comm 1 i] using this)
      have hsplit : pbn + (chunks + 1) * B = pbn + B + chunks * B := by
        rw [Nat.succ_mul]
        ring
      refine ⟨R, ?_, ?_, ?_⟩
      · rw [T, chunkEvents_succ]
        simp [hs1]
      · rw [W]
        simp [hs1]
        omega
      · intro p hp1 hp2
        by_cases hfirst : p < pbn + B
        · have hframe := clearLoop_disk_frame L B zb chunks (pbn + B) s1 p (Or.inl hfirst)
          rw [hframe, hs1]
          simp only
          rw [if_pos ⟨hp1, hfirst⟩, Nat.mod_eq_of_lt (by omega)]
        · have hD := D p (by omega) (by omega)
          rw [hD]
          congr 1
          have hBp : B ≤ p - pbn := by omega
          rw [show p - (pbn + B) = p - pbn - B by omega]
          exact (Nat.mod_eq_sub_mod hBp).symm

theorem clearLoop_fail (L : Layer) (B : Nat) (zb : List Nat) :
    ∀ chunks k pbn s, k < chunks →
      (∀ i, i < k → L.writeOk (s.writeCalls + i) = true) →
      L.writeOk (s.writeCalls + k) = false →
      (clearLoop L B zb chunks pbn s).1 = Except.error VDOErr.ioError
      ∧ (clearLoop L B zb chunks pbn s).2.trace
          = s.trace ++ (List.range k).map (fun i => WriteEvent.mk (pbn + i * B) B zb true)
              ++ [WriteEvent.mk (pbn + k * B) B zb false]
      ∧ (clearLoop L B zb chunks pbn s).2.writeCalls = s.writeCalls + k + 1
      ∧ (∀ p, pbn ≤ p → p < pbn + k * B →
          (clearLoop L B zb chunks pbn s).2.disk p = bufBlock zb ((p - pbn) % B))
      ∧ (∀ p, pbn + k * B ≤ p → (clearLoop L B zb chunks pbn s).2.disk p = s.disk p)
      ∧ (∀ p, p < pbn → (clearLoop L B zb chunks pbn s).2.disk p = s.disk p) := by
  intro chunks
  induction chunks with
  | zero => intro k pbn s hk; omega
  | succ chunks ih =>
      intro k pbn s hk hbefore hfail
      cases k with
      | zero =>
          have hw : L.writeOk s.writeCalls = false := by simpa using hfail
          simp only [clearLoop]
          rw [layerWrite_fail hw, andThen_pair_error]
          refine ⟨rfl, by simp, by simp, ?_, ?_, ?_⟩
          · intro p hp1 hp2
            omega
          · intro p _
            rfl
          · intro p _
            rfl
      | succ k =>
          have hw : L.writeOk s.writeCalls = true := by
            have := hbefore 0 (by omega)
            simpa using this
          simp only [clearLoop]
          rw [layerWrite_ok hw, andThen_pair_ok]
          set s1 : DevState :=
            { s with
              disk := fun p => if pbn ≤ p ∧ p < pbn + B then bufBlock zb (p - pbn) else s.disk p,
              trace := s.trace ++ [⟨pbn, B, zb, true⟩],
              writeCalls := s.writeCalls + 1 } with hs1
          obtain ⟨R, T, W, D, F, G⟩ := ih k (pbn + B) s1 (by omega)
            (by
              intro i hi
              have := hbefore (i + 1) (by omega)
              rw [hs1]
              simpa [Nat.add_assoc, Nat.add_comm 1 i] using this)
            (by
              rw [hs1]
              simpa [Nat.add_assoc, Nat.add_comm 1 k] using hfail)
          have hsplit : pbn + (k + 1) * B = pbn + B + k * B := by
            rw [Nat.succ_mul]
            ring
          refine ⟨R, ?_, ?_, ?_, ?_, ?_⟩
          · rw [T, chunkEvents_succ]
            simp only [hs1]
            simp [hsplit]
          · rw [W]
            simp [hs1]
            omega
          · intro p hp1 hp2
            by_cases hfirst : p < pbn + B
            · have hframe := G p (by omega)
              rw [hframe, hs1]
              simp only
              rw [if_pos ⟨hp1, hfirst⟩, Nat.mod_eq_of_lt (by omega)]
            · have hD := D p (by omega) (by omega)
              rw [hD]
              congr 1
              have hBp : B ≤ p - pbn := by omega
              rw [show p - (pbn + B) = p - pbn - B by omega]
              exact (Nat.mod_eq_sub_mod hBp).symm
          · intro p hp
            have hframe := F p (by omega)
            rw [hframe, hs1]
            simp only
            rw [if_neg (by omega)]
          · intro p hp
            have hframe := G p (by omega)
            rw [hframe, hs1]
            simp only
            rw [if_neg (by omega)]

theorem bufBlock_zero {B j : Nat} (h : j < B) :
    bufBlock (List.replicate (B * VDO_BLOCK_SIZE) 0) j = List.replicate VDO_BLOCK_SIZE 0 := by
  unfold bufBlock
  rw [List.drop_replicate, List.take_replicate]
  congr 1
  simp only [VDO_BLOCK_SIZE]
  omega

theorem coveredCount_nil (p : Nat) : coveredCount [] p = 0 := rfl

theorem coveredCount_cons (e : WriteEvent) (t : List WriteEvent) (p : Nat) :
    coveredCount (e :: t) p
      = (if e.pbn ≤ p ∧ p < e.pbn + e.count then 1 else 0) + coveredCount t p := by
  unfold coveredCount
  rw [List.filter_cons]
  by_cases h : e.pbn ≤ p ∧ p < e.pbn + e.count
  · rw [if_pos h, if_pos (by simp [h.1, h.2])]
    simp [Nat.add_comm]
  · rw [if_neg h, if_neg (by
      simp only [Bool.and_eq_true, decide_eq_true_eq]
      exact fun hc => h hc)]
    simp

theorem clearChunkEvents_succ (start B chunks : Nat) :
    clearChunkEvents start B (chunks + 1)
      = WriteEvent.mk start B (List.replicate (B * VDO_BLOCK_SIZE) 0) true
          :: clearChunkEvents (start + B) B chunks := by
  unfold clearChunkEvents
  exact chunkEvents_succ start B chunks _

theorem coveredCount_chunkEvents (B : Nat) (hB : 0 < B) :
    ∀ chunks start p,
      coveredCount (clearChunkEvents start B chunks) p
        = if start ≤ p ∧ p < start + chunks * B then 1 else 0 := by
  intro chunks
  induction chunks with
  | zero =>
      intro start p
      rw [if_neg (by omega)]
      rfl
  | succ chunks ih =>
      intro start p
      rw [clearChunkEvents_succ, coveredCount_cons, ih (start + B) p]
      have hsplit : start + (chunks + 1) * B = start + B + chunks * B := by
        rw [Nat.succ_mul]
        ring
      by_cases h1 : start ≤ p ∧ p < start + B
      · rw [if_pos h1, if_neg (by omega), if_pos (by omega)]
      · rw [if_neg h1]
        by_cases h2 : start + B ≤ p ∧ p < start + B + chunks * B
        · rw [if_pos h2, if_pos (by omega)]
        · rw [if_neg h2, if_neg (by omega)]

theorem clearLoop_result (L : Layer) (B : Nat) (zb : List Nat) :
    ∀ chunks pbn s,
      (clearLoop L B zb chunks pbn s).1 = Except.ok ()
      ∨ (clearLoop L B zb chunks pbn s).1 = Except.error VDOErr.ioError := by
  intro chunks
  induction chunks with
  | zero => intro pbn s; exact Or.inl rfl
  | succ chunks ih =>
      intro pbn s
      simp only [clearLoop]
      cases hw : L.writeOk s.writeCalls with
      | true =>
          rw [layerWrite_ok hw, andThen_pair_ok]
          exact ih (pbn + B) _
      | false =>
          rw [layerWrite_fail hw, andThen_pair_error]
          exact Or.inr rfl

theorem clearPartition_ok (L : Layer) (layout : VdoLayout) (id : PartitionID) (s : DevState)
    (halloc : L.allocOk s.allocCalls = true)
    (hwrites : ∀ i, i < ceilDiv (get_vdo_partition layout id).size
        (computeBufferBlocks (get_vdo_partition layout id).size) →
        L.writeOk (s.writeCalls + i) = true) :
    (clearPartition L layout id s).1 = Except.ok ()
    ∧ (clearPartition L layout id s).2.trace
        = s.trace ++ partitionClearEvents (get_vdo_partition layout id)
    ∧ (clearPartition L layout id s).2.writeCalls
        = s.writeCalls + ceilDiv (get_vdo_partition layout id).size
            (computeBufferBlocks (get_vdo_partition layout id).size)
    ∧ (clearPartition L layout id s).2.allocCalls = s.allocCalls + 1
    ∧ (clearPartition L layout id s).2.readCalls = s.readCalls
    ∧ (∀ p, (get_vdo_partition layout id).offset ≤ p →
        p < (get_vdo_partition layout id).offset + (get_vdo_partition layout id).size →
        (clearPartition L layout id s).2.disk p = List.replicate VDO_BLOCK_SIZE 0)
    ∧ (∀ p, p < (get_vdo_partition layout id).offset
          ∨ (get_vdo_partition layout id).offset + (get_vdo_partition layout id).size ≤ p →
        (clearPartition L layout id s).2.disk p = s.disk p) := by
  set part := get_vdo_partition layout id with hpart
  set B := computeBufferBlocks part.size with hB
  set chunks := ceilDiv part.size B with hchunks
  have hBpos : 0 < B := computeBufferBlocks_pos part.size
  have hBdvd : B ∣ part.size := (computeBufferBlocks_spec part.size).2.1
  have htile : chunks * B = part.size := ceilDiv_mul_of_dvd hBpos hBdvd
  unfold clearPartition
  rw [layerAllocate_ok halloc, andThen_pair_ok]
  set s1 : DevState := { s with allocCalls := s.allocCalls + 1 } with hs1
  obtain ⟨R, T, W, D⟩ := clearLoop_ok L B (List.replicate (B * VDO_BLOCK_SIZE) 0)
    chunks part.offset s1 (by
      intro i hi
      rw [hs1]
      exact hwrites i hi)
  obtain ⟨CR, CA⟩ := clearLoop_counters L B (List.replicate (B * VDO_BLOCK_SIZE) 0)
    chunks part.offset s1
  refine ⟨R, ?_, ?_, ?_, ?_, ?_, ?_⟩
  · rw [T, hs1]
    rfl
  · rw [W, hs1]
  · rw [CA, hs1]
  · rw [CR, hs1]
  · intro p hp1 hp2
    have hD := D p hp1 (by omega)
    rw [hD]
    exact bufBlock_zero (Nat.mod_lt _ hBpos)
  · intro p hp
    have := clearLoop_disk_frame L B (List.replicate (B * VDO_BLOCK_SIZE) 0)
      chunks part.offset s1 p (by omega)
    rw [this, hs1]

theorem clearPartition_frame_general (L : Layer) (layout : VdoLayout) (id : PartitionID)
    (s : DevState) :
    (∀ e ∈ (clearPartition L layout id s).2.trace,
        e ∈ s.trace
        ∨ ((get_vdo_partition layout id).offset ≤ e.pbn
            ∧ e.pbn + e.count
                ≤ (get_vdo_partition layout id).offset + (get_vdo_partition layout id).size
            ∧ e.data = List.replicate (computeBufferBlocks (get_vdo_partition layout id).size
                * VDO_BLOCK_SIZE) 0))
    ∧ (∀ p, p < (get_vdo_partition layout id).offset
          ∨ (get_vdo_partition layout id).offset + (get_vdo_partition layout id).size ≤ p →
        (clearPartition L layout id s).2.disk p = s.disk p)
    ∧ (clearPartition L layout id s).2.readCalls = s.readCalls
    ∧ ((clearPartition L layout id s).1 = Except.ok ()
        ∨ (clearPartition L layout id s).1 = Except.error VDOErr.outOfMemory
        ∨ (clearPartition L layout id s).1 = Except.error VDOErr.ioError) := by
  set part := get_vdo_partition layout id with hpart
  set B := computeBufferBlocks part.size with hB
  set chunks := ceilDiv part.size B with hchunks
  have hBpos : 0 < B := computeBufferBlocks_pos part.size
  have hBdvd : B ∣ part.size := (computeBufferBlocks_spec part.size).2.1
  have htile : chunks * B = part.size := ceilDiv_mul_of_dvd hBpos hBdvd
  unfold clearPartition
  cases halloc : L.allocOk s.allocCalls with
  | false =>
      rw [show layerAllocate L s
          = (Except.error VDOErr.outOfMemory, { s with allocCalls := s.allocCalls + 1 }) by
        unfold layerAllocate
        rw [if_neg (by simp [halloc])]]
      rw [andThen_pair_error]
      exact ⟨fun e he => Or.inl he, fun p _ => rfl, rfl, Or.inr (Or.inl rfl)⟩
  | true =>
      rw [layerAllocate_ok halloc, andThen_pair_ok]
      set s1 : DevState := { s with allocCalls := s.allocCalls + 1 } with hs1
      obtain ⟨t, ht, hmem⟩ := clearLoop_trace_shape L B
        (List.replicate (B * VDO_BLOCK_SIZE) 0) chunks part.offset s1
      obtain ⟨CR, CA⟩ := clearLoop_counters L B (List.replicate (B * VDO_BLOCK_SIZE) 0)
        chunks part.offset s1
      refine ⟨?_, ?_, ?_, ?_⟩
      · intro e he
        rw [ht, hs1] at he
        simp only [List.mem_append] at he
        rcases he with he | he
        · exact Or.inl he
        · obtain ⟨i, hi, h1, h2, h3⟩ := hmem e he
          refine Or.inr ⟨by omega, ?_, h3⟩
          rw [h1, h2]
          have : (i + 1) * B ≤ chunks * B := Nat.mul_le_mul_right B (by omega)
          rw [Nat.succ_mul] at this
          omega
      · intro p hp
        have := clearLoop_disk_frame L B (List.replicate (B * VDO_BLOCK_SIZE) 0)
          chunks part.offset s1 p (by omega)
        rw [this, hs1]
      · rw [CR, hs1]
      · rcases clearLoop_result L B (List.replicate (B * VDO_BLOCK_SIZE) 0) chunks
            part.offset s1 with h | h
        · exact Or.inl h
        · exact Or.inr (Or.inr h)

theorem clearPartition_fail (L : Layer) (layout : VdoLayout) (id : PartitionID)
    (s : DevState) (k : Nat)
    (halloc : L.allocOk s.allocCalls = true)
    (hk : k < ceilDiv (get_vdo_partition layout id).size
        (computeBufferBlocks (get_vdo_partition layout id).size))
    (hbefore : ∀ i, i < k → L.writeOk (s.writeCalls + i) = true)
    (hfail : L.writeOk (s.writeCalls + k) = false) :
    (clearPartition L layout id s).1 = Except.error VDOErr.ioError
    ∧ (clearPartition L layout id s).2.trace
        = s.trace
          ++ clearChunkEvents (get_vdo_partition layout id).offset
              (computeBufferBlocks (get_vdo_partition layout id).size) k
          ++ [WriteEvent.mk
              ((get_vdo_partition layout id).offset
                + k * computeBufferBlocks (get_vdo_partition layout id).size)
              (computeBufferBlocks (get_vdo_partition layout id).size)
              (List.replicate (computeBufferBlocks (get_vdo_partition layout id).size
                * VDO_BLOCK_SIZE) 0) false]
    ∧ (clearPartition L layout id s).2.writeCalls = s.writeCalls + k + 1
    ∧ (∀ p, (get_vdo_partition layout id).offset ≤ p →
        p < (get_vdo_partition layout id).offset
          + k * computeBufferBlocks (get_vdo_partition layout id).size →
        (clearPartition L layout id s).2.disk p = List.replicate VDO_BLOCK_SIZE 0)
    ∧ (∀ p, (get_vdo_partition layout id).offset
          + k * computeBufferBlocks (get_vdo_partition layout id).size ≤ p →
        (clearPartition L layout id s).2.disk p = s.disk p)
    ∧ (∀ p, p < (get_vdo_partition layout id).offset →
        (clearPartition L layout id s).2.disk p = s.disk p) := by
  set part := get_vdo_partition layout id with hpart
  set B := computeBufferBlocks part.size with hB
  set chunks := ceilDiv part.size B with hchunks
  have hBpos : 0 < B := computeBufferBlocks_pos part.size
  unfold clearPartition
  rw [layerAllocate_ok halloc, andThen_pair_ok]
  set s1 : DevState := { s with allocCalls := s.allocCalls + 1 } with hs1
  obtain ⟨R, T, W, D, F, G⟩ := clearLoop_fail L B (List.replicate (B * VDO_BLOCK_SIZE) 0)
    chunks k part.offset s1 hk
    (by
      intro i hi
      rw [hs1]
      exact hbefore i hi)
    (by
      rw [hs1]
      exact hfail)
  refine ⟨R, ?_, ?_, ?_, ?_, ?_⟩
  · rw [T, hs1]
    rfl
  · rw [W, hs1]
  · intro p hp1 hp2
    have hD := D p hp1 hp2
    rw [hD]
    exact bufBlock_zero (Nat.mod_lt _ hBpos)
  · intro p hp
    have := F p hp
    rw [this, hs1]
  · intro p hp
    have := G p hp
    rw [this, hs1]

/-- C3: for every partition of positive size, clearPartition writes zeros to
every block of the partition exactly once, using a chunk size equal to the
largest power-of-two divisor of the partition size capped at 4096 blocks;
if any sub-write fails, the error is returned immediately, no further
sub-writes are issued, and earlier sub-writes are not rolled back. -/
theorem claim_clearPartition_behaviour (L : Layer) (layout : VdoLayout) (id : PartitionID)
    (d : Nat → List Nat) (hsize : 0 < (get_vdo_partition layout id).size) :
    (∃ m, computeBufferBlocks (get_vdo_partition layout id).size = 2 ^ m)
    ∧ computeBufferBlocks (get_vdo_partition layout id).size
        ∣ (get_vdo_partition layout id).size
    ∧ computeBufferBlocks (get_vdo_partition layout id).size ≤ 4096
    ∧ (∀ k, k ≤ 12 → 2 ^ k ∣ (get_vdo_partition layout id).size →
        2 ^ k ≤ computeBufferBlocks (get_vdo_partition layout id).size)
    ∧ (L.allocOk 0 = true → (∀ i, L.writeOk i = true) →
        (clearPartition L layout id (mkDevState d)).1 = Except.ok ()
        ∧ ∀ p, (get_vdo_partition layout id).offset ≤ p →
            p < (get_vdo_partition layout id).offset + (get_vdo_partition layout id).size →
            (clearPartition L layout id (mkDevState d)).2.disk p = zeroBlockBytes
            ∧ coveredCount (clearPartition L layout id (mkDevState d)).2.trace p = 1)
    ∧ (∀ k, L.allocOk 0 = true →
        k < ceilDiv (get_vdo_partition layout id).size
            (computeBufferBlocks (get_vdo_partition layout id).size) →
        (∀ i, i < k → L.writeOk i = true) → L.writeOk k = false →
        (clearPartition L layout id (mkDevState d)).1 = Except.error VDOErr.ioError
        ∧ (clearPartition L layout id (mkDevState d)).2.trace.length = k + 1
        ∧ (∀ p, (get_vdo_partition layout id).offset ≤ p →
            p < (get_vdo_partition layout id).offset
              + k * computeBufferBlocks (get_vdo_partition layout id).size →
            (clearPartition L layout id (mkDevState d)).2.disk p = zeroBlockBytes)
        ∧ (∀ p, (get_vdo_partition layout id).offset
              + k * computeBufferBlocks (get_vdo_partition layout id).size ≤ p →
            (clearPartition L layout id (mkDevState d)).2.disk p = d p)) := by
  obtain ⟨⟨m, hm, _⟩, hdvd, hle, hmax⟩ :=
    computeBufferBlocks_spec (get_vdo_partition layout id).size
  set part := get_vdo_partition layout id with hpart
  set B := computeBufferBlocks part.size with hB
  have hBpos : 0 < B := computeBufferBlocks_pos part.size
  have htile : ceilDiv part.size B * B = part.size := ceilDiv_mul_of_dvd hBpos hdvd
  refine ⟨⟨m, hm⟩, hdvd, hle, hmax, ?_, ?_⟩
  · intro halloc hwrites
    obtain ⟨R, T, _, _, _, Z, _⟩ := clearPartition_ok L layout id (mkDevState d)
      (by simpa [mkDevState] using halloc)
      (by
        intro i _
        simpa [mkDevState] using hwrites ((mkDevState d).writeCalls + i))
    refine ⟨R, ?_⟩
    intro p hp1 hp2
    refine ⟨Z p hp1 hp2, ?_⟩
    rw [T]
    show coveredCount ([] ++ partitionClearEvents part) p = 1
    rw [List.nil_append]
    unfold partitionClearEvents
    rw [← hB, coveredCount_chunkEvents B hBpos, htile, if_pos ⟨hp1, hp2⟩]
  · intro k halloc hk hbefore hfail
    obtain ⟨R, T, _, D, F, _⟩ := clearPartition_fail L layout id (mkDevState d) k
      (by simpa [mkDevState] using halloc) hk
      (by
        intro i hi
        simpa [mkDevState] using hbefore i hi)
      (by simpa [mkDevState] using hfail)
    refine ⟨R, ?_, D, F⟩
    rw [T]
    show (([] ++ clearChunkEvents part.offset B k) ++ [_]).length = k + 1
    simp [clearChunkEvents]

/-- C9: clearPartition never writes outside the partition it is given:
every write it issues targets blocks inside the partition, and every block
outside the partition is left unchanged, whatever faults the layer
injects. -/
theorem claim_clearPartition_stays_inside (L : Layer) (layout : VdoLayout)
    (id : PartitionID) (s : DevState) :
    (∀ e ∈ (clearPartition L layout id s).2.trace,
        e ∈ s.trace
        ∨ ((get_vdo_partition layout id).offset ≤ e.pbn
            ∧ e.pbn + e.count
                ≤ (get_vdo_partition layout id).offset + (get_vdo_partition layout id).size))
    ∧ ∀ p, p < (get_vdo_partition layout id).offset
        ∨ (get_vdo_partition layout id).offset + (get_vdo_partition layout id).size ≤ p →
        (clearPartition L layout id s).2.disk p = s.disk p := by
  obtain ⟨hmem, hframe, _, _⟩ := clearPartition_frame_general L layout id s
  refine ⟨?_, hframe⟩
  intro e he
  rcases hmem e he with h | h
  · exact Or.inl h
  · exact Or.inr ⟨h.1, h.2.1⟩

theorem claim_clearPartition_stays_inside_witness :
    (clearPartition sampleLayer sampleLayout PartitionID.recoveryJournal
        (mkDevState blankDisk)).2.disk 3 = blankDisk 3 :=
  (claim_clearPartition_stays_inside sampleLayer sampleLayout PartitionID.recoveryJournal
    (mkDevState blankDisk)).2 3 (Or.inl (by decide))

theorem claim_clearPartition_behaviour_witness :
    0 < (get_vdo_partition sampleLayout PartitionID.blockMap).size
    ∧ (clearPartition sampleLayer sampleLayout PartitionID.blockMap
        (mkDevState blankDisk)).1 = Except.ok ()
    ∧ (clearPartition sampleLayer sampleLayout PartitionID.blockMap
        (mkDevState blankDisk)).2.disk 7 = zeroBlockBytes
    ∧ coveredCount (clearPartition sampleLayer sampleLayout PartitionID.blockMap
        (mkDevState blankDisk)).2.trace 7 = 1 := by
  have h := claim_clearPartition_behaviour sampleLayer sampleLayout PartitionID.blockMap
    blankDisk (by decide)
  have h2 := h.2.2.2.2.1 rfl (fun _ => rfl)
  exact ⟨by decide, h2.1, (h2.2 7 (by decide) (by decide)).1, (h2.2 7 (by decide) (by decide)).2⟩

/-! ## Byte-slice evaluation of the encoded blocks -/

theorem drop_prepend {α : Type} (A B : List α) (n : Nat) (h : A.length ≤ n) :
    (A ++ B).drop n = B.drop (n - A.length) := by
  rw [List.drop_append_eq_append_drop, List.drop_eq_nil_of_le h, List.nil_append]

theorem sliceNat_skip (A B : List Nat) (off w n : Nat) (h : A.length = n) (hn : n ≤ off) :
    sliceNat (A ++ B) off w = sliceNat B (off - n) w := by
  unfold sliceNat
  rw [drop_prepend A B off (by omega), h]

theorem sliceNat_here (A B : List Nat) (w : Nat) (h : A.length = w) :
    sliceNat (A ++ B) 0 w = decodeLE A := by
  unfold sliceNat
  rw [List.drop_zero, List.take_append_eq_append_take, List.take_of_length_le (by omega),
    h, Nat.sub_self, List.take_zero, List.append_nil]

theorem take_prepend {α : Type} (A B : List α) (w : Nat) (h : A.length = w) :
    (A ++ B).take w = A := by
  subst h
  exact List.take_left A B

theorem geo_take_magic (g : VolumeGeometry) :
    (encodeVolumeGeometry g).take 8 = GEOMETRY_MAGIC := by
  unfold encodeVolumeGeometry
  simp only [List.append_assoc]
  exact take_prepend _ _ _ (by simp [GEOMETRY_MAGIC])

theorem geo_slice_id (g : VolumeGeometry) :
    sliceNat (encodeVolumeGeometry g) 8 4 = GEOMETRY_BLOCK_HEADER_ID := by
  unfold encodeVolumeGeometry
  simp only [List.append_assoc]
  rw [sliceNat_skip _ _ _ _ 8 (by simp [GEOMETRY_MAGIC]) (by omega)]
  norm_num
  rw [sliceNat_here _ _ _ (by simp), decodeLE_encodeLE]
  rfl

theorem geo_slice_major (g : VolumeGeometry) :
    sliceNat (encodeVolumeGeometry g) 12 4 = GEOMETRY_MAJOR_VERSION := by
  unfold encodeVolumeGeometry
  simp only [List.append_assoc]
  rw [sliceNat_skip _ _ _ _ 8 (by simp [GEOMETRY_MAGIC]) (by omega)]
  rw [sliceNat_skip _ _ _ _ 4 (by simp) (by omega)]
  norm_num
  rw [sliceNat_here _ _ _ (by simp), decodeLE_encodeLE]
  rfl

theorem geo_slice_minor (g : VolumeGeometry) :
    sliceNat (encodeVolumeGeometry g) 16 4 = GEOMETRY_MINOR_VERSION := by
  unfold encodeVolumeGeometry
  simp only [List.append_assoc]
  rw [sliceNat_skip _ _ _ _ 8 (by simp [GEOMETRY_MAGIC]) (by omega)]
  rw [sliceNat_skip _ _ _ _ 4 (by simp) (by omega)]
  rw [sliceNat_skip _ _ _ _ 4 (by simp) (by omega)]
  norm_num
  rw [sliceNat_here _ _ _ (by simp), decodeLE_encodeLE]
  rfl

theorem geo_slice_release (g : VolumeGeometry) :
    sliceNat (encodeVolumeGeometry g) 24 4 = CURRENT_RELEASE_VERSION := by
  unfold encodeVolumeGeometry
  simp only [List.append_assoc]
  rw [sliceNat_skip _ _ _ _ 8 (by simp [GEOMETRY_MAGIC]) (by omega)]
  rw [sliceNat_skip _ _ _ _ 4 (by simp) (by omega)]
  rw [sliceNat_skip _ _ _ _ 4 (by simp) (by omega)]
  rw [sliceNat_skip _ _ _ _ 4 (by simp) (by omega)]
  rw [sliceNat_skip _ _ _ _ 4 (by simp) (by omega)]
  norm_num
  rw [sliceNat_here _ _ _ (by simp), decodeLE_encodeLE]
  norm_num [CURRENT_RELEASE_VERSION]

theorem geo_drop_tail (g : VolumeGeometry) :
    (encodeVolumeGeometry g).drop 32 = padTo 4064 (geometryTail g) := by
  unfold encodeVolumeGeometry
  simp only [List.append_assoc]
  rw [drop_prepend _ _ _ (by simp [GEOMETRY_MAGIC])]
  rw [drop_prepend _ _ _ (by simp [GEOMETRY_MAGIC])]
  rw [drop_prepend _ _ _ (by simp [GEOMETRY_MAGIC])]
  rw [drop_prepend _ _ _ (by simp [GEOMETRY_MAGIC])]
  rw [drop_prepend _ _ _ (by simp [GEOMETRY_MAGIC])]
  rw [drop_prepend _ _ _ (by simp [GEOMETRY_MAGIC])]
  rw [drop_prepend _ _ _ (by simp [GEOMETRY_MAGIC])]
  simp [GEOMETRY_MAGIC]

theorem geo_slice_crc (g : VolumeGeometry) :
    sliceNat (encodeVolumeGeometry g) 28 4 = crc32c (padTo 4064 (geometryTail g)) := by
  unfold encodeVolumeGeometry
  simp only [List.append_assoc]
  rw [sliceNat_skip _ _ _ _ 8 (by simp [GEOMETRY_MAGIC]) (by omega)]
  rw [sliceNat_skip _ _ _ _ 4 (by simp) (by omega)]
  rw [sliceNat_skip _ _ _ _ 4 (by simp) (by omega)]
  rw [sliceNat_skip _ _ _ _ 4 (by simp) (by omega)]
  rw [sliceNat_skip _ _ _ _ 4 (by simp) (by omega)]
  rw [sliceNat_skip _ _ _ _ 4 (by simp) (by omega)]
  norm_num
  rw [sliceNat_here _ _ _ (by simp), decodeLE_encodeLE]
  exact Nat.mod_eq_of_lt (by
    have := crc32c_lt (padTo 4064 (geometryTail g))
    norm_num at this ⊢
    omega)

theorem geo_slice_nonce (g : VolumeGeometry) :
    sliceNat (encodeVolumeGeometry g) 32 8 = g.nonce % 2 ^ 64 := by
  unfold encodeVolumeGeometry geometryTail padTo
  simp only [List.append_assoc]
  rw [sliceNat_skip _ _ _ _ 8 (by simp [GEOMETRY_MAGIC]) (by omega)]
  rw [sliceNat_skip _ _ _ _ 4 (by simp) (by omega)]
  rw [sliceNat_skip _ _ _ _ 4 (by simp) (by omega)]
  rw [sliceNat_skip _ _ _ _ 4 (by simp) (by omega)]
  rw [sliceNat_skip _ _ _ _ 4 (by simp) (by omega)]
  rw [sliceNat_skip _ _ _ _ 4 (by simp) (by omega)]
  rw [sliceNat_skip _ _ _ _ 4 (by simp) (by omega)]
  norm_num
  rw [sliceNat_here _ _ _ (by simp), decodeLE_encodeLE]
  norm_num

theorem geo_uuid_bytes (g : VolumeGeometry) (h16 : g.uuid.length = 16) :
    ((encodeVolumeGeometry g).drop 40).take 16 = g.uuid.map fun b => b % 256 := by
  unfold encodeVolumeGeometry geometryTail padTo
  simp only [List.append_assoc]
  rw [drop_prepend _ _ _ (by simp [GEOMETRY_MAGIC])]
  rw [drop_prepend _ _ _ (by simp [GEOMETRY_MAGIC])]
  rw [drop_prepend _ _ _ (by simp [GEOMETRY_MAGIC])]
  rw [drop_prepend _ _ _ (by simp [GEOMETRY_MAGIC])]
  rw [drop_prepend _ _ _ (by simp [GEOMETRY_MAGIC])]
  rw [drop_prepend _ _ _ (by simp [GEOMETRY_MAGIC])]
  rw [drop_prepend _ _ _ (by simp [GEOMETRY_MAGIC])]
  rw [drop_prepend _ _ _ (by simp [GEOMETRY_MAGIC])]
  norm_num [GEOMETRY_MAGIC]
  rw [take_prepend _ _ _ (by simp [h16])]

theorem geo_slice_indexLength (g : VolumeGeometry) (h16 : g.uuid.length = 16) :
    sliceNat (encodeVolumeGeometry g) 68 8 = g.indexLength % 2 ^ 64 := by
  unfold encodeVolumeGeometry geometryTail padTo
  simp only [List.append_assoc]
  rw [sliceNat_skip _ _ _ _ 8 (by simp [GEOMETRY_MAGIC]) (by omega)]
  rw [sliceNat_skip _ _ _ _ 4 (by simp) (by omega)]
  rw [sliceNat_skip _ _ _ _ 4 (by simp) (by omega)]
  rw [sliceNat_skip _ _ _ _ 4 (by simp) (by omega)]
  rw [sliceNat_skip _ _ _ _ 4 (by simp) (by omega)]
  rw [sliceNat_skip _ _ _ _ 4 (by simp) (by omega)]
  rw [sliceNat_skip _ _ _ _ 4 (by simp) (by omega)]
  rw [sliceNat_skip _ _ _ _ 8 (by simp) (by omega)]
  rw [sliceNat_skip _ _ _ _ 16 (by simp [h16]) (by omega)]
  rw [sliceNat_skip _ _ _ _ 4 (by simp) (by omega)]
  rw [sliceNat_skip _ _ _ _ 8 (by simp) (by omega)]
  norm_num
  rw [sliceNat_here _ _ _ (by simp), decodeLE_encodeLE]
  norm_num

theorem geo_slice_dataOffset (g : VolumeGeometry) (h16 : g.uuid.length = 16) :
    sliceNat (encodeVolumeGeometry g) 80 8 = (1 + g.indexLength) % 2 ^ 64 := by
  unfold encodeVolumeGeometry geometryTail padTo
  simp only [List.append_assoc]
  rw [sliceNat_skip _ _ _ _ 8 (by simp [GEOMETRY_MAGIC]) (by omega)]
  rw [sliceNat_skip _ _ _ _ 4 (by simp) (by omega)]
  rw [sliceNat_skip _ _ _ _ 4 (by simp) (by omega)]
  rw [sliceNat_skip _ _ _ _ 4 (by simp) (by omega)]
  rw [sliceNat_skip _ _ _ _ 4 (by simp) (by omega)]
  rw [sliceNat_skip _ _ _ _ 4 (by simp) (by omega)]
  rw [sliceNat_skip _ _ _ _ 4 (by simp) (by omega)]
  rw [sliceNat_skip _ _ _ _ 8 (by simp) (by omega)]
  rw [sliceNat_skip _ _ _ _ 16 (by simp [h16]) (by omega)]
  rw [sliceNat_skip _ _ _ _ 4 (by simp) (by omega)]
  rw [sliceNat_skip _ _ _ _ 8 (by simp) (by omega)]
  rw [sliceNat_skip _ _ _ _ 8 (by simp) (by omega)]
  rw [sliceNat_skip _ _ _ _ 4 (by simp) (by omega)]
  norm_num
  rw [sliceNat_here _ _ _ (by simp), decodeLE_encodeLE]
  norm_num

theorem geo_slice_mem (g : VolumeGeometry) (h16 : g.uuid.length = 16) :
    sliceNat (encodeVolumeGeometry g) 96 4 = g.indexConfig.mem % 2 ^ 32 := by
  unfold encodeVolumeGeometry geometryTail padTo
  simp only [List.append_assoc]
  rw [sliceNat_skip _ _ _ _ 8 (by simp [GEOMETRY_MAGIC]) (by omega)]
  rw [sliceNat_skip _ _ _ _ 4 (by simp) (by omega)]
  rw [sliceNat_skip _ _ _ _ 4 (by simp) (by omega)]
  rw [sliceNat_skip _ _ _ _ 4 (by simp) (by omega)]
  rw [sliceNat_skip _ _ _ _ 4 (by simp) (by omega)]
  rw [sliceNat_skip _ _ _ _ 4 (by simp) (by omega)]
  rw [sliceNat_skip _ _ _ _ 4 (by simp) (by omega)]
  rw [sliceNat_skip _ _ _ _ 8 (by simp) (by omega)]
  rw [sliceNat_skip _ _ _ _ 16 (by simp [h16]) (by omega)]
  rw [sliceNat_skip _ _ _ _ 4 (by simp) (by omega)]
  rw [sliceNat_skip _ _ _ _ 8 (by simp) (by omega)]
  rw [sliceNat_skip _ _ _ _ 8 (by simp) (by omega)]
  rw [sliceNat_skip _ _ _ _ 4 (by simp) (by omega)]
  rw [sliceNat_skip _ _ _ _ 8 (by simp) (by omega)]
  rw [sliceNat_skip _ _ _ _ 8 (by simp) (by omega)]
  norm_num
  rw [sliceNat_here _ _ _ (by simp), decodeLE_encodeLE]
  norm_num

theorem geo_slice_checkpoint (g : VolumeGeometry) (h16 : g.uuid.length = 16) :
    sliceNat (encodeVolumeGeometry g) 100 4 = g.indexConfig.checkpointFrequency % 2 ^ 32 := by
  unfold encodeVolumeGeometry geometryTail padTo
  simp only [List.append_assoc]
  rw [sliceNat_skip _ _ _ _ 8 (by simp [GEOMETRY_MAGIC]) (by omega)]
  rw [sliceNat_skip _ _ _ _ 4 (by simp) (by omega)]
  rw [sliceNat_skip _ _ _ _ 4 (by simp) (by omega)]
  rw [sliceNat_skip _ _ _ _ 4 (by simp) (by omega)]
  rw [sliceNat_skip _ _ _ _ 4 (by simp) (by omega)]
  rw [sliceNat_skip _ _ _ _ 4 (by simp) (by omega)]
  rw [sliceNat_skip _ _ _ _ 4 (by simp) (by omega)]
  rw [sliceNat_skip _ _ _ _ 8 (by simp) (by omega)]
  rw [sliceNat_skip _ _ _ _ 16 (by simp [h16]) (by omega)]
  rw [sliceNat_skip _ _ _ _ 4 (by simp) (by omega)]
  rw [sliceNat_skip _ _ _ _ 8 (by simp) (by omega)]
  rw [sliceNat_skip _ _ _ _ 8 (by simp) (by omega)]
  rw [sliceNat_skip _ _ _ _ 4 (by simp) (by omega)]
  rw [sliceNat_skip _ _ _ _ 8 (by simp) (by omega)]
  rw [sliceNat_skip _ _ _ _ 8 (by simp) (by omega)]
  rw [sliceNat_skip _ _ _ _ 4 (by simp) (by omega)]
  norm_num
  rw [sliceNat_here _ _ _ (by simp), decodeLE_encodeLE]
  norm_num

theorem geo_slice_sparse (g : VolumeGeometry) (h16 : g.uuid.length = 16) :
    sliceNat (encodeVolumeGeometry g) 104 1
      = if g.indexConfig.sparse then 1 else 0 := by
  unfold encodeVolumeGeometry geometryTail padTo
  simp only [List.append_assoc]
  rw [sliceNat_skip _ _ _ _ 8 (by simp [GEOMETRY_MAGIC]) (by omega)]
  rw [sliceNat_skip _ _ _ _ 4 (by simp) (by omega)]
  rw [sliceNat_skip _ _ _ _ 4 (by simp) (by omega)]
  rw [sliceNat_skip _ _ _ _ 4 (by simp) (by omega)]
  rw [sliceNat_skip _ _ _ _ 4 (by simp) (by omega)]
  rw [sliceNat_skip _ _ _ _ 4 (by simp) (by omega)]
  rw [sliceNat_skip _ _ _ _ 4 (by simp) (by omega)]
  rw [sliceNat_skip _ _ _ _ 8 (by simp) (by omega)]
  rw [sliceNat_skip _ _ _ _ 16 (by simp [h16]) (by omega)]
  rw [sliceNat_skip _ _ _ _ 4 (by simp) (by omega)]
  rw [sliceNat_skip _ _ _ _ 8 (by simp) (by omega)]
  rw [sliceNat_skip _ _ _ _ 8 (by simp) (by omega)]
  rw [sliceNat_skip _ _ _ _ 4 (by simp) (by omega)]
  rw [sliceNat_skip _ _ _ _ 8 (by simp) (by omega)]
  rw [sliceNat_skip _ _ _ _ 8 (by simp) (by omega)]
  rw [sliceNat_skip _ _ _ _ 4 (by simp) (by omega)]
  rw [sliceNat_skip _ _ _ _ 4 (by simp) (by omega)]
  norm_num
  unfold sliceNat
  rw [List.drop_zero, List.take_succ_cons, List.take_zero]
  cases g.indexConfig.sparse <;> rfl

theorem loadVolumeGeometry_encode (g : VolumeGeometry) (hwf : WFGeometry g) :
    loadVolumeGeometryBytes (encodeVolumeGeometry g) = Except.ok g := by
  obtain ⟨hn, h16, hbytes, hidx, hmem, hcp⟩ := hwf
  unfold loadVolumeGeometryBytes
  rw [if_neg (by rw [geo_take_magic]; exact fun h => h rfl)]
  rw [if_neg (by rw [geo_slice_id]; exact fun h => h rfl)]
  rw [if_neg (by rw [geo_slice_major]; exact fun h => h rfl)]
  rw [if_neg (by rw [geo_slice_minor]; exact lt_irrefl _)]
  rw [if_neg (by rw [geo_slice_release]; exact fun h => h rfl)]
  rw [if_neg (by rw [geo_slice_crc, geo_drop_tail]; exact fun h => h rfl)]
  rw [geo_slice_indexLength g h16, geo_slice_dataOffset g h16]
  rw [Nat.mod_eq_of_lt (by omega), Nat.mod_eq_of_lt (by omega)]
  rw [if_neg (by omega)]
  rw [geo_slice_nonce, geo_uuid_bytes g h16, geo_slice_mem g h16, geo_slice_checkpoint g h16,
    geo_slice_sparse g h16]
  rw [Nat.mod_eq_of_lt hn, Nat.mod_eq_of_lt hmem, Nat.mod_eq_of_lt hcp]
  have huuid : (g.uuid.map fun b => b % 256) = g.uuid := by
    rw [List.map_congr_left fun b hb => Nat.mod_eq_of_lt (hbytes b hb)]
    exact List.map_id g.uuid
  rw [huuid]
  obtain ⟨gn, gu, gi, gc⟩ := g
  obtain ⟨cm, cc, cs⟩ := gc
  simp only
  congr 1
  cases cs <;> rfl

theorem sliceNat_skip_cons {x : Nat} {B : List Nat} {off w : Nat} (h : 1 ≤ off) :
    sliceNat (x :: B) off w = sliceNat B (off - 1) w := by
  obtain ⟨o, rfl⟩ : ∃ o, off = o + 1 := ⟨off - 1, by omega⟩
  unfold sliceNat
  rw [List.drop_succ_cons]
  norm_num


/-! ## Byte-slice evaluation of the encoded super block -/

theorem sb_slice_id (st : VDOState) (c : SuperBlockContents) :
    sliceNat (encodeSuperBlock st c) 0 4 = SUPER_BLOCK_ID := by
  unfold encodeSuperBlock superBlockPayloadCore padTo
  simp only [List.append_assoc]
  norm_num
  rw [sliceNat_here _ _ _ (by simp only [encodeLE_length, List.length_singleton]), decodeLE_encodeLE]
  rfl

theorem sb_slice_major (st : VDOState) (c : SuperBlockContents) :
    sliceNat (encodeSuperBlock st c) 4 4 = SUPER_BLOCK_MAJOR_VERSION := by
  unfold encodeSuperBlock superBlockPayloadCore padTo
  simp only [List.append_assoc]
  rw [sliceNat_skip _ _ _ _ 4 (by simp only [encodeLE_length, List.length_singleton]) (by omega)]
  norm_num
  rw [sliceNat_here _ _ _ (by simp only [encodeLE_length, List.length_singleton]), decodeLE_encodeLE]
  rfl

theorem sb_slice_minor (st : VDOState) (c : SuperBlockContents) :
    sliceNat (encodeSuperBlock st c) 8 4 = SUPER_BLOCK_MINOR_VERSION := by
  unfold encodeSuperBlock superBlockPayloadCore padTo
  simp only [List.append_assoc]
  rw [sliceNat_skip _ _ _ _ 4 (by simp only [encodeLE_length, List.length_singleton]) (by omega)]
  rw [sliceNat_skip _ _ _ _ 4 (by simp only [encodeLE_length, List.length_singleton]) (by omega)]
  norm_num
  rw [sliceNat_here _ _ _ (by simp only [encodeLE_length, List.length_singleton]), decodeLE_encodeLE]
  rfl

theorem sb_slice_release (st : VDOState) (c : SuperBlockContents) :
    sliceNat (encodeSuperBlock st c) 20 4 = CURRENT_RELEASE_VERSION := by
  unfold encodeSuperBlock superBlockPayloadCore padTo
  simp only [List.append_assoc]
  rw [sliceNat_skip _ _ _ _ 4 (by simp only [encodeLE_length, List.length_singleton]) (by omega)]
  rw [sliceNat_skip _ _ _ _ 4 (by simp only [encodeLE_length, List.length_singleton]) (by omega)]
  rw [sliceNat_skip _ _ _ _ 4 (by simp only [encodeLE_length, List.length_singleton]) (by omega)]
  rw [sliceNat_skip _ _ _ _ 4 (by simp only [encodeLE_length, List.length_singleton]) (by omega)]
  rw [sliceNat_skip _ _ _ _ 4 (by simp only [encodeLE_length, List.length_singleton]) (by omega)]
  norm_num
  rw [sliceNat_here _ _ _ (by simp only [encodeLE_length, List.length_singleton]), decodeLE_encodeLE]
  norm_num [CURRENT_RELEASE_VERSION]

theorem sb_slice_journalHead (st : VDOState) (c : SuperBlockContents) :
    sliceNat (encodeSuperBlock st c) 24 8 = c.journalHead % 2 ^ 64 := by
  unfold encodeSuperBlock superBlockPayloadCore padTo
  simp only [List.append_assoc]
  rw [sliceNat_skip _ _ _ _ 4 (by simp only [encodeLE_length, List.length_singleton]) (by omega)]
  rw [sliceNat_skip _ _ _ _ 4 (by simp only [encodeLE_length, List.length_singleton]) (by omega)]
  rw [sliceNat_skip _ _ _ _ 4 (by simp only [encodeLE_length, List.length_singleton]) (by omega)]
  rw [sliceNat_skip _ _ _ _ 4 (by simp only [encodeLE_length, List.length_singleton]) (by omega)]
  rw [sliceNat_skip _ _ _ _ 4 (by simp only [encodeLE_length, List.length_singleton]) (by omega)]
  rw [sliceNat_skip _ _ _ _ 4 (by simp only [encodeLE_length, List.length_singleton]) (by omega)]
  norm_num
  rw [sliceNat_here _ _ _ (by simp only [encodeLE_length, List.length_singleton]), decodeLE_encodeLE]
  norm_num

theorem sb_slice_journalTail (st : VDOState) (c : SuperBlockContents) :
    sliceNat (encodeSuperBlock st c) 32 8 = c.journalTail % 2 ^ 64 := by
  unfold encodeSuperBlock superBlockPayloadCore padTo
  simp only [List.append_assoc]
  rw [sliceNat_skip _ _ _ _ 4 (by simp only [encodeLE_length, List.length_singleton]) (by omega)]
  rw [sliceNat_skip _ _ _ _ 4 (by simp only [encodeLE_length, List.length_singleton]) (by omega)]
  rw [sliceNat_skip _ _ _ _ 4 (by simp only [encodeLE_length, List.length_singleton]) (by omega)]
  rw [sliceNat_skip _ _ _ _ 4 (by simp only [encodeLE_length, List.length_singleton]) (by omega)]
  rw [sliceNat_skip _ _ _ _ 4 (by simp only [encodeLE_length, List.length_singleton]) (by omega)]
  rw [sliceNat_skip _ _ _ _ 4 (by simp only [encodeLE_length, List.length_singleton]) (by omega)]
  rw [sliceNat_skip _ _ _ _ 8 (by simp only [encodeLE_length, List.length_singleton]) (by omega)]
  norm_num
  rw [sliceNat_here _ _ _ (by simp only [encodeLE_length, List.length_singleton]), decodeLE_encodeLE]
  norm_num

theorem sb_slice_slabCount (st : VDOState) (c : SuperBlockContents) :
    sliceNat (encodeSuperBlock st c) 40 8 = c.slabCount % 2 ^ 64 := by
  unfold encodeSuperBlock superBlockPayloadCore padTo
  simp only [List.append_assoc]
  rw [sliceNat_skip _ _ _ _ 4 (by simp only [encodeLE_length, List.length_singleton]) (by omega)]
  rw [sliceNat_skip _ _ _ _ 4 (by simp only [encodeLE_length, List.length_singleton]) (by omega)]
  rw [sliceNat_skip _ _ _ _ 4 (by simp only [encodeLE_length, List.length_singleton]) (by omega)]
  rw [sliceNat_skip _ _ _ _ 4 (by simp only [encodeLE_length, List.length_singleton]) (by omega)]
  rw [sliceNat_skip _ _ _ _ 4 (by simp only [encodeLE_length, List.length_singleton]) (by omega)]
  rw [sliceNat_skip _ _ _ _ 4 (by simp only [encodeLE_length, List.length_singleton]) (by omega)]
  rw [sliceNat_skip _ _ _ _ 8 (by simp only [encodeLE_length, List.length_singleton]) (by omega)]
  rw [sliceNat_skip _ _ _ _ 8 (by simp only [encodeLE_length, List.length_singleton]) (by omega)]
  norm_num
  rw [sliceNat_here _ _ _ (by simp only [encodeLE_length, List.length_singleton]), decodeLE_encodeLE]
  norm_num

theorem sb_slice_depotFirstBlock (st : VDOState) (c : SuperBlockContents) :
    sliceNat (encodeSuperBlock st c) 48 8 = c.depotFirstBlock % 2 ^ 64 := by
  unfold encodeSuperBlock superBlockPayloadCore padTo
  simp only [List.append_assoc]
  rw [sliceNat_skip _ _ _ _ 4 (by simp only [encodeLE_length, List.length_singleton]) (by omega)]
  rw [sliceNat_skip _ _ _ _ 4 (by simp only [encodeLE_length, List.length_singleton]) (by omega)]
  rw [sliceNat_skip _ _ _ _ 4 (by simp only [encodeLE_length, List.length_singleton]) (by omega)]
  rw [sliceNat_skip _ _ _ _ 4 (by simp only [encodeLE_length, List.length_singleton]) (by omega)]
  rw [sliceNat_skip _ _ _ _ 4 (by simp only [encodeLE_length, List.length_singleton]) (by omega)]
  rw [sliceNat_skip _ _ _ _ 4 (by simp only [encodeLE_length, List.length_singleton]) (by omega)]
  rw [sliceNat_skip _ _ _ _ 8 (by simp only [encodeLE_length, List.length_singleton]) (by omega)]
  rw [sliceNat_skip _ _ _ _ 8 (by simp only [encodeLE_length, List.length_singleton]) (by omega)]
  rw [sliceNat_skip _ _ _ _ 8 (by simp only [encodeLE_length, List.length_singleton]) (by omega)]
  norm_num
  rw [sliceNat_here _ _ _ (by simp only [encodeLE_length, List.length_singleton]), decodeLE_encodeLE]
  norm_num

theorem sb_slice_nonce (st : VDOState) (c : SuperBlockContents) :
    sliceNat (encodeSuperBlock st c) 57 8 = c.nonce % 2 ^ 64 := by
  unfold encodeSuperBlock superBlockPayloadCore padTo
  simp only [List.append_assoc]
  rw [sliceNat_skip _ _ _ _ 4 (by simp only [encodeLE_length, List.length_singleton]) (by omega)]
  rw [sliceNat_skip _ _ _ _ 4 (by simp only [encodeLE_length, List.length_singleton]) (by omega)]
  rw [sliceNat_skip _ _ _ _ 4 (by simp only [encodeLE_length, List.length_singleton]) (by omega)]
  rw [sliceNat_skip _ _ _ _ 4 (by simp only [encodeLE_length, List.length_singleton]) (by omega)]
  rw [sliceNat_skip _ _ _ _ 4 (by simp only [encodeLE_length, List.length_singleton]) (by omega)]
  rw [sliceNat_skip _ _ _ _ 4 (by simp only [encodeLE_length, List.length_singleton]) (by omega)]
  rw [sliceNat_skip _ _ _ _ 8 (by simp only [encodeLE_length, List.length_singleton]) (by omega)]
  rw [sliceNat_skip _ _ _ _ 8 (by simp only [encodeLE_length, List.length_singleton]) (by omega)]
  rw [sliceNat_skip _ _ _ _ 8 (by simp only [encodeLE_length, List.length_singleton]) (by omega)]
  rw [sliceNat_skip _ _ _ _ 8 (by simp only [encodeLE_length, List.length_singleton]) (by omega)]
  rw [sliceNat_skip _ _ _ _ 1 (by simp only [encodeLE_length, List.length_singleton]) (by omega)]
  norm_num
  rw [sliceNat_here _ _ _ (by simp only [encodeLE_length, List.length_singleton]), decodeLE_encodeLE]
  norm_num

theorem sb_slice_logical (st : VDOState) (c : SuperBlockContents) :
    sliceNat (encodeSuperBlock st c) 65 8 = c.logicalBlocks % 2 ^ 64 := by
  unfold encodeSuperBlock superBlockPayloadCore padTo
  simp only [List.append_assoc]
  rw [sliceNat_skip _ _ _ _ 4 (by simp only [encodeLE_length, List.length_singleton]) (by omega)]
  rw [sliceNat_skip _ _ _ _ 4 (by simp only [encodeLE_length, List.length_singleton]) (by omega)]
  rw [sliceNat_skip _ _ _ _ 4 (by simp only [encodeLE_length, List.length_singleton]) (by omega)]
  rw [sliceNat_skip _ _ _ _ 4 (by simp only [encodeLE_length, List.length_singleton]) (by omega)]
  rw [sliceNat_skip _ _ _ _ 4 (by simp only [encodeLE_length, List.length_singleton]) (by omega)]
  rw [sliceNat_skip _ _ _ _ 4 (by simp only [encodeLE_length, List.length_singleton]) (by omega)]
  rw [sliceNat_skip _ _ _ _ 8 (by simp only [encodeLE_length, List.length_singleton]) (by omega)]
  rw [sliceNat_skip _ _ _ _ 8 (by simp only [encodeLE_length, List.length_singleton]) (by omega)]
  rw [sliceNat_skip _ _ _ _ 8 (by simp only [encodeLE_length, List.length_singleton]) (by omega)]
  rw [sliceNat_skip _ _ _ _ 8 (by simp only [encodeLE_length, List.length_singleton]) (by omega)]
  rw [sliceNat_skip _ _ _ _ 1 (by simp only [encodeLE_length, List.length_singleton]) (by omega)]
  rw [sliceNat_skip _ _ _ _ 8 (by simp only [encodeLE_length, List.length_singleton]) (by omega)]
  norm_num
  rw [sliceNat_here _ _ _ (by simp only [encodeLE_length, List.length_singleton]), decodeLE_encodeLE]
  norm_num

theorem sb_slice_physical (st : VDOState) (c : SuperBlockContents) :
    sliceNat (encodeSuperBlock st c) 73 8 = c.physicalBlocks % 2 ^ 64 := by
  unfold encodeSuperBlock superBlockPayloadCore padTo
  simp only [List.append_assoc]
  rw [sliceNat_skip _ _ _ _ 4 (by simp only [encodeLE_length, List.length_singleton]) (by omega)]
  rw [sliceNat_skip _ _ _ _ 4 (by simp only [encodeLE_length, List.length_singleton]) (by omega)]
  rw [sliceNat_skip _ _ _ _ 4 (by simp only [encodeLE_length, List.length_singleton]) (by omega)]
  rw [sliceNat_skip _ _ _ _ 4 (by simp only [encodeLE_length, List.length_singleton]) (by omega)]
  rw [sliceNat_skip _ _ _ _ 4 (by simp only [encodeLE_length, List.length_singleton]) (by omega)]
  rw [sliceNat_skip _ _ _ _ 4 (by simp only [encodeLE_length, List.length_singleton]) (by omega)]
  rw [sliceNat_skip _ _ _ _ 8 (by simp only [encodeLE_length, List.length_singleton]) (by omega)]
  rw [sliceNat_skip _ _ _ _ 8 (by simp only [encodeLE_length, List.length_singleton]) (by omega)]
  rw [sliceNat_skip _ _ _ _ 8 (by simp only [encodeLE_length, List.length_singleton]) (by omega)]
  rw [sliceNat_skip _ _ _ _ 8 (by simp only [encodeLE_length, List.length_singleton]) (by omega)]
  rw [sliceNat_skip _ _ _ _ 1 (by simp only [encodeLE_length, List.length_singleton]) (by omega)]
  rw [sliceNat_skip _ _ _ _ 8 (by simp only [encodeLE_length, List.length_singleton]) (by omega)]
  rw [sliceNat_skip _ _ _ _ 8 (by simp only [encodeLE_length, List.length_singleton]) (by omega)]
  norm_num
  rw [sliceNat_here _ _ _ (by simp only [encodeLE_length, List.length_singleton]), decodeLE_encodeLE]
  norm_num

theorem sb_slice_slabSize (st : VDOState) (c : SuperBlockContents) :
    sliceNat (encodeSuperBlock st c) 81 8 = c.slabSize % 2 ^ 64 := by
  unfold encodeSuperBlock superBlockPayloadCore padTo
  simp only [List.append_assoc]
  rw [sliceNat_skip _ _ _ _ 4 (by simp only [encodeLE_length, List.length_singleton]) (by omega)]
  rw [sliceNat_skip _ _ _ _ 4 (by simp only [encodeLE_length, List.length_singleton]) (by omega)]
  rw [sliceNat_skip _ _ _ _ 4 (by simp only [encodeLE_length, List.length_singleton]) (by omega)]
  rw [sliceNat_skip _ _ _ _ 4 (by simp only [encodeLE_length, List.length_singleton]) (by omega)]
  rw [sliceNat_skip _ _ _ _ 4 (by simp only [encodeLE_length, List.length_singleton]) (by omega)]
  rw [sliceNat_skip _ _ _ _ 4 (by simp only [encodeLE_length, List.length_singleton]) (by omega)]
  rw [sliceNat_skip _ _ _ _ 8 (by simp only [encodeLE_length, List.length_singleton]) (by omega)]
  rw [sliceNat_skip _ _ _ _ 8 (by simp only [encodeLE_length, List.length_singleton]) (by omega)]
  rw [sliceNat_skip _ _ _ _ 8 (by simp only [encodeLE_length, List.length_singleton]) (by omega)]
  rw [sliceNat_skip _ _ _ _ 8 (by simp only [encodeLE_length, List.length_singleton]) (by omega)]
  rw [sliceNat_skip _ _ _ _ 1 (by simp only [encodeLE_length, List.length_singleton]) (by omega)]
  rw [sliceNat_skip _ _ _ _ 8 (by simp only [encodeLE_length, List.length_singleton]) (by omega)]
  rw [sliceNat_skip _ _ _ _ 8 (by simp only [encodeLE_length, List.length_singleton]) (by omega)]
  rw [sliceNat_skip _ _ _ _ 8 (by simp only [encodeLE_length, List.length_singleton]) (by omega)]
  norm_num
  rw [sliceNat_here _ _ _ (by simp only [encodeLE_length, List.length_singleton]), decodeLE_encodeLE]
  norm_num

theorem sb_slice_rjSize (st : VDOState) (c : SuperBlockContents) :
    sliceNat (encodeSuperBlock st c) 89 8 = c.recoveryJournalSize % 2 ^ 64 := by
  unfold encodeSuperBlock superBlockPayloadCore padTo
  simp only [List.append_assoc]
  rw [sliceNat_skip _ _ _ _ 4 (by simp only [encodeLE_length, List.length_singleton]) (by omega)]
  rw [sliceNat_skip _ _ _ _ 4 (by simp only [encodeLE_length, List.length_singleton]) (by omega)]
  rw [sliceNat_skip _ _ _ _ 4 (by simp only [encodeLE_length, List.length_singleton]) (by omega)]
  rw [sliceNat_skip _ _ _ _ 4 (by simp only [encodeLE_length, List.length_singleton]) (by omega)]
  rw [sliceNat_skip _ _ _ _ 4 (by simp only [encodeLE_length, List.length_singleton]) (by omega)]
  rw [sliceNat_skip _ _ _ _ 4 (by simp only [encodeLE_length, List.length_singleton]) (by omega)]
  rw [sliceNat_skip _ _ _ _ 8 (by simp only [encodeLE_length, List.length_singleton]) (by omega)]
  rw [sliceNat_skip _ _ _ _ 8 (by simp only [encodeLE_length, List.length_singleton]) (by omega)]
  rw [sliceNat_skip _ _ _ _ 8 (by simp only [encodeLE_length, List.length_singleton]) (by omega)]
  rw [sliceNat_skip _ _ _ _ 8 (by simp only [encodeLE_length, List.length_singleton]) (by omega)]
  rw [sliceNat_skip _ _ _ _ 1 (by simp only [encodeLE_length, List.length_singleton]) (by omega)]
  rw [sliceNat_skip _ _ _ _ 8 (by simp only [encodeLE_length, List.length_singleton]) (by omega)]
  rw [sliceNat_skip _ _ _ _ 8 (by simp only [encodeLE_length, List.length_singleton]) (by omega)]
  rw [sliceNat_skip _ _ _ _ 8 (by simp only [encodeLE_length, List.length_singleton]) (by omega)]
  rw [sliceNat_skip _ _ _ _ 8 (by simp only [encodeLE_length, List.length_singleton]) (by omega)]
  norm_num
  rw [sliceNat_here _ _ _ (by simp only [encodeLE_length, List.length_singleton]), decodeLE_encodeLE]
  norm_num

theorem sb_slice_sjBlocks (st : VDOState) (c : SuperBlockContents) :
    sliceNat (encodeSuperBlock st c) 97 8 = c.slabJournalBlocks % 2 ^ 64 := by
  unfold encodeSuperBlock superBlockPayloadCore padTo
  simp only [List.append_assoc]
  rw [sliceNat_skip _ _ _ _ 4 (by simp only [encodeLE_length, List.length_singleton]) (by omega)]
  rw [sliceNat_skip _ _ _ _ 4 (by simp only [encodeLE_length, List.length_singleton]) (by omega)]
  rw [sliceNat_skip _ _ _ _ 4 (by simp only [encodeLE_length, List.length_singleton]) (by omega)]
  rw [sliceNat_skip _ _ _ _ 4 (by simp only [encodeLE_length, List.length_singleton]) (by omega)]
  rw [sliceNat_skip _ _ _ _ 4 (by simp only [encodeLE_length, List.length_singleton]) (by omega)]
  rw [sliceNat_skip _ _ _ _ 4 (by simp only [encodeLE_length, List.length_singleton]) (by omega)]
  rw [sliceNat_skip _ _ _ _ 8 (by simp only [encodeLE_length, List.length_singleton]) (by omega)]
  rw [sliceNat_skip _ _ _ _ 8 (by simp only [encodeLE_length, List.length_singleton]) (by omega)]
  rw [sliceNat_skip _ _ _ _ 8 (by simp only [encodeLE_length, List.length_singleton]) (by omega)]
  rw [sliceNat_skip _ _ _ _ 8 (by simp only [encodeLE_length, List.length_singleton]) (by omega)]
  rw [sliceNat_skip _ _ _ _ 1 (by simp only [encodeLE_length, List.length_singleton]) (by omega)]
  rw [sliceNat_skip _ _ _ _ 8 (by simp only [encodeLE_length, List.length_singleton]) (by omega)]
  rw [sliceNat_skip _ _ _ _ 8 (by simp only [encodeLE_length, List.length_singleton]) (by omega)]
  rw [sliceNat_skip _ _ _ _ 8 (by simp only [encodeLE_length, List.length_singleton]) (by omega)]
  rw [sliceNat_skip _ _ _ _ 8 (by simp only [encodeLE_length, List.length_singleton]) (by omega)]
  rw [sliceNat_skip _ _ _ _ 8 (by simp only [encodeLE_length, List.length_singleton]) (by omega)]
  norm_num
  rw [sliceNat_here _ _ _ (by simp only [encodeLE_length, List.length_singleton]), decodeLE_encodeLE]
  norm_num

theorem sb_slice_completeRecoveries (st : VDOState) (c : SuperBlockContents) :
    sliceNat (encodeSuperBlock st c) 105 8 = c.completeRecoveries % 2 ^ 64 := by
  unfold encodeSuperBlock superBlockPayloadCore padTo
  simp only [List.append_assoc]
  rw [sliceNat_skip _ _ _ _ 4 (by simp only [encodeLE_length, List.length_singleton]) (by omega)]
  rw [sliceNat_skip _ _ _ _ 4 (by simp only [encodeLE_length, List.length_singleton]) (by omega)]
  rw [sliceNat_skip _ _ _ _ 4 (by simp only [encodeLE_length, List.length_singleton]) (by omega)]
  rw [sliceNat_skip _ _ _ _ 4 (by simp only [encodeLE_length, List.length_singleton]) (by omega)]
  rw [sliceNat_skip _ _ _ _ 4 (by simp only [encodeLE_length, List.length_singleton]) (by omega)]
  rw [sliceNat_skip _ _ _ _ 4 (by simp only [encodeLE_length, List.length_singleton]) (by omega)]
  rw [sliceNat_skip _ _ _ _ 8 (by simp only [encodeLE_length, List.length_singleton]) (by omega)]
  rw [sliceNat_skip _ _ _ _ 8 (by simp only [encodeLE_length, List.length_singleton]) (by omega)]
  rw [sliceNat_skip _ _ _ _ 8 (by simp only [encodeLE_length, List.length_singleton]) (by omega)]
  rw [sliceNat_skip _ _ _ _ 8 (by simp only [encodeLE_length, List.length_singleton]) (by omega)]
  rw [sliceNat_skip _ _ _ _ 1 (by simp only [encodeLE_length, List.length_singleton]) (by omega)]
  rw [sliceNat_skip _ _ _ _ 8 (by simp only [encodeLE_length, List.length_singleton]) (by omega)]
  rw [sliceNat_skip _ _ _ _ 8 (by simp only [encodeLE_length, List.length_singleton]) (by omega)]
  rw [sliceNat_skip _ _ _ _ 8 (by simp only [encodeLE_length, List.length_singleton]) (by omega)]
  rw [sliceNat_skip _ _ _ _ 8 (by simp only [encodeLE_length, List.length_singleton]) (by omega)]
  rw [sliceNat_skip _ _ _ _ 8 (by simp only [encodeLE_length, List.length_singleton]) (by omega)]
  rw [sliceNat_skip _ _ _ _ 8 (by simp only [encodeLE_length, List.length_singleton]) (by omega)]
  norm_num
  rw [sliceNat_here _ _ _ (by simp only [encodeLE_length, List.length_singleton]), decodeLE_encodeLE]
  norm_num

theorem sb_slice_readOnlyRecoveries (st : VDOState) (c : SuperBlockContents) :
    sliceNat (encodeSuperBlock st c) 113 8 = c.readOnlyRecoveries % 2 ^ 64 := by
  unfold encodeSuperBlock superBlockPayloadCore padTo
  simp only [List.append_assoc]
  rw [sliceNat_skip _ _ _ _ 4 (by simp only [encodeLE_length, List.length_singleton]) (by omega)]
  rw [sliceNat_skip _ _ _ _ 4 (by simp only [encodeLE_length, List.length_singleton]) (by omega)]
  rw [sliceNat_skip _ _ _ _ 4 (by simp only [encodeLE_length, List.length_singleton]) (by omega)]
  rw [sliceNat_skip _ _ _ _ 4 (by simp only [encodeLE_length, List.length_singleton]) (by omega)]
  rw [sliceNat_skip _ _ _ _ 4 (by simp only [encodeLE_length, List.length_singleton]) (by omega)]
  rw [sliceNat_skip _ _ _ _ 4 (by simp only [encodeLE_length, List.length_singleton]) (by omega)]
  rw [sliceNat_skip _ _ _ _ 8 (by simp only [encodeLE_length, List.length_singleton]) (by omega)]
  rw [sliceNat_skip _ _ _ _ 8 (by simp only [encodeLE_length, List.length_singleton]) (by omega)]
  rw [sliceNat_skip _ _ _ _ 8 (by simp only [encodeLE_length, List.length_singleton]) (by omega)]
  rw [sliceNat_skip _ _ _ _ 8 (by simp only [encodeLE_length, List.length_singleton]) (by omega)]
  rw [sliceNat_skip _ _ _ _ 1 (by simp only [encodeLE_length, List.length_singleton]) (by omega)]
  rw [sliceNat_skip _ _ _ _ 8 (by simp only [encodeLE_length, List.length_singleton]) (by omega)]
  rw [sliceNat_skip _ _ _ _ 8 (by simp only [encodeLE_length, List.length_singleton]) (by omega)]
  rw [sliceNat_skip _ _ _ _ 8 (by simp only [encodeLE_length, List.length_singleton]) (by omega)]
  rw [sliceNat_skip _ _ _ _ 8 (by simp only [encodeLE_length, List.length_singleton]) (by omega)]
  rw [sliceNat_skip _ _ _ _ 8 (by simp only [encodeLE_length, List.length_singleton]) (by omega)]
  rw [sliceNat_skip _ _ _ _ 8 (by simp only [encodeLE_length, List.length_singleton]) (by omega)]
  rw [sliceNat_skip _ _ _ _ 8 (by simp only [encodeLE_length, List.length_singleton]) (by omega)]
  norm_num
  rw [sliceNat_here _ _ _ (by simp only [encodeLE_length, List.length_singleton]), decodeLE_encodeLE]
  norm_num

theorem sb_slice_crc (st : VDOState) (c : SuperBlockContents) :
    sliceNat (encodeSuperBlock st c) 16 4
      = crc32c (padTo 4076 (superBlockPayloadCore st c)) := by
  unfold encodeSuperBlock
  simp only [List.append_assoc]
  rw [sliceNat_skip _ _ _ _ 4 (by simp only [encodeLE_length]) (by omega)]
  rw [sliceNat_skip _ _ _ _ 4 (by simp only [encodeLE_length]) (by omega)]
  rw [sliceNat_skip _ _ _ _ 4 (by simp only [encodeLE_length]) (by omega)]
  rw [sliceNat_skip _ _ _ _ 4 (by simp only [encodeLE_length]) (by omega)]
  norm_num
  rw [sliceNat_here _ _ _ (by simp only [encodeLE_length]), decodeLE_encodeLE]
  exact Nat.mod_eq_of_lt (by
    have := crc32c_lt (padTo 4076 (superBlockPayloadCore st c))
    norm_num at this ⊢
    omega)

theorem sb_slice_state (st : VDOState) (c : SuperBlockContents) :
    sliceNat (encodeSuperBlock st c) 56 1 = stateToByte st := by
  unfold encodeSuperBlock superBlockPayloadCore padTo
  simp only [List.append_assoc]
  rw [sliceNat_skip _ _ _ _ 4 (by simp only [encodeLE_length]) (by omega)]
  rw [sliceNat_skip _ _ _ _ 4 (by simp only [encodeLE_length]) (by omega)]
  rw [sliceNat_skip _ _ _ _ 4 (by simp only [encodeLE_length]) (by omega)]
  rw [sliceNat_skip _ _ _ _ 4 (by simp only [encodeLE_length]) (by omega)]
  rw [sliceNat_skip _ _ _ _ 4 (by simp only [encodeLE_length]) (by omega)]
  rw [sliceNat_skip _ _ _ _ 4 (by simp only [encodeLE_length]) (by omega)]
  rw [sliceNat_skip _ _ _ _ 8 (by simp only [encodeLE_length]) (by omega)]
  rw [sliceNat_skip _ _ _ _ 8 (by simp only [encodeLE_length]) (by omega)]
  rw [sliceNat_skip _ _ _ _ 8 (by simp only [encodeLE_length]) (by omega)]
  rw [sliceNat_skip _ _ _ _ 8 (by simp only [encodeLE_length]) (by omega)]
  norm_num
  unfold sliceNat
  rw [List.drop_zero, List.take_succ_cons, List.take_zero]
  show stateToByte st % 256 + 256 * decodeLE [] = stateToByte st
  rw [Nat.mod_eq_of_lt (stateToByte_lt st)]
  simp [decodeLE]

theorem sb_drop_payload (st : VDOState) (c : SuperBlockContents) :
    (encodeSuperBlock st c).drop 20 = padTo 4076 (superBlockPayloadCore st c) := by
  unfold encodeSuperBlock
  simp only [List.append_assoc]
  rw [drop_prepend _ _ _ (by simp only [encodeLE_length]; omega)]
  rw [drop_prepend _ _ _ (by simp only [encodeLE_length]; omega)]
  rw [drop_prepend _ _ _ (by simp only [encodeLE_length]; omega)]
  rw [drop_prepend _ _ _ (by simp only [encodeLE_length]; omega)]
  rw [drop_prepend _ _ _ (by simp only [encodeLE_length]; omega)]
  simp only [encodeLE_length]
  norm_num

theorem loadSuperBlock_encode (st : VDOState) (c : SuperBlockContents)
    (hc : ContentsInRange c) :
    loadSuperBlockBytes (encodeSuperBlock st c) = Except.ok (st, c) := by
  obtain ⟨h1, h2, h3, h4, h5, h6, h7, h8, h9, h10, h11, h12⟩ := hc
  unfold loadSuperBlockBytes
  rw [if_neg (by rw [sb_slice_id]; exact fun h => h rfl)]
  rw [if_neg (by rw [sb_slice_major]; exact fun h => h rfl)]
  rw [if_neg (by rw [sb_slice_minor]; exact fun h => h rfl)]
  rw [if_neg (by rw [sb_slice_release]; exact fun h => h rfl)]
  rw [if_neg (by rw [sb_slice_crc, sb_drop_payload]; exact fun h => h rfl)]
  rw [sb_slice_state, byteToState_stateToByte]
  rw [sb_slice_nonce, sb_slice_logical, sb_slice_physical, sb_slice_slabSize,
    sb_slice_rjSize, sb_slice_sjBlocks, sb_slice_completeRecoveries,
    sb_slice_readOnlyRecoveries, sb_slice_slabCount, sb_slice_depotFirstBlock,
    sb_slice_journalHead, sb_slice_journalTail]
  rw [Nat.mod_eq_of_lt h1, Nat.mod_eq_of_lt h2, Nat.mod_eq_of_lt h3, Nat.mod_eq_of_lt h4,
    Nat.mod_eq_of_lt h5, Nat.mod_eq_of_lt h6, Nat.mod_eq_of_lt h7, Nat.mod_eq_of_lt h8,
    Nat.mod_eq_of_lt h9, Nat.mod_eq_of_lt h10, Nat.mod_eq_of_lt h11, Nat.mod_eq_of_lt h12]

theorem getElem?_append_left_eq {A B : List Nat} {i : Nat} (h : i < A.length) :
    (A ++ B)[i]? = A[i]? := by
  rw [List.getElem?_append, if_pos h]

theorem getElem?_prefix_eq {A B1 B2 : List Nat} {i : Nat} (h : i < A.length) :
    (A ++ B1)[i]? = (A ++ B2)[i]? := by
  rw [getElem?_append_left_eq h, getElem?_append_left_eq h]

theorem getElem?_suffix_eq {A1 A2 B : List Nat} {i : Nat} (hlen : A1.length = A2.length)
    (h : A1.length ≤ i) :
    (A1 ++ B)[i]? = (A2 ++ B)[i]? := by
  rw [List.getElem?_append_right h, List.getElem?_append_right (by omega), hlen]

theorem superBlockPayloadCore_length (st : VDOState) (c : SuperBlockContents) :
    (superBlockPayloadCore st c).length = 101 := by
  unfold superBlockPayloadCore
  simp

theorem encodeSuperBlock_eq (st : VDOState) (c : SuperBlockContents) :
    encodeSuperBlock st c
      = (encodeLE 4 SUPER_BLOCK_ID ++ encodeLE 4 SUPER_BLOCK_MAJOR_VERSION
          ++ encodeLE 4 SUPER_BLOCK_MINOR_VERSION ++ encodeLE 4 VDO_BLOCK_SIZE)
        ++ (encodeLE 4 (crc32c (padTo 4076 (superBlockPayloadCore st c)))
          ++ ((encodeLE 4 CURRENT_RELEASE_VERSION ++ encodeLE 8 c.journalHead
              ++ encodeLE 8 c.journalTail ++ encodeLE 8 c.slabCount
              ++ encodeLE 8 c.depotFirstBlock)
            ++ ([stateToByte st]
              ++ (encodeLE 8 c.nonce ++ encodeLE 8 c.logicalBlocks
                  ++ encodeLE 8 c.physicalBlocks ++ encodeLE 8 c.slabSize
                  ++ encodeLE 8 c.recoveryJournalSize ++ encodeLE 8 c.slabJournalBlocks
                  ++ encodeLE 8 c.completeRecoveries ++ encodeLE 8 c.readOnlyRecoveries
                  ++ List.replicate 3975 0)))) := by
  have hlen : 4076 - (superBlockPayloadCore st c).length = 3975 := by
    rw [superBlockPayloadCore_length]
  unfold encodeSuperBlock padTo
  rw [hlen]
  unfold superBlockPayloadCore
  simp only [List.append_assoc]

theorem encodeSuperBlock_byte_frame (st1 st2 : VDOState) (c : SuperBlockContents) (i : Nat)
    (hstate : i ≠ SUPER_BLOCK_STATE_OFFSET)
    (hcrc : ¬(SUPER_BLOCK_CRC_OFFSET ≤ i ∧ i < SUPER_BLOCK_CRC_OFFSET + 4)) :
    (encodeSuperBlock st2 c)[i]? = (encodeSuperBlock st1 c)[i]? := by
  rw [encodeSuperBlock_eq st1 c, encodeSuperBlock_eq st2 c]
  simp only [SUPER_BLOCK_STATE_OFFSET, SUPER_BLOCK_CRC_OFFSET] at hstate hcrc
  by_cases h16 : i < 16
  · exact getElem?_prefix_eq (by simp only [List.length_append, encodeLE_length]; omega)
  · have hge20 : 20 ≤ i := by omega
    rw [List.getElem?_append_right
      (show (encodeLE 4 SUPER_BLOCK_ID ++ encodeLE 4 SUPER_BLOCK_MAJOR_VERSION
          ++ encodeLE 4 SUPER_BLOCK_MINOR_VERSION ++ encodeLE 4 VDO_BLOCK_SIZE).length ≤ i
        from by simp only [List.length_append, encodeLE_length]; omega)]
    rw [List.getElem?_append_right
      (show (encodeLE 4 SUPER_BLOCK_ID ++ encodeLE 4 SUPER_BLOCK_MAJOR_VERSION
          ++ encodeLE 4 SUPER_BLOCK_MINOR_VERSION ++ encodeLE 4 VDO_BLOCK_SIZE).length ≤ i
        from by simp only [List.length_append, encodeLE_length]; omega)]
    simp only [List.length_append, encodeLE_length]
    rw [List.getElem?_append_right
      (show (encodeLE 4 (crc32c (padTo 4076 (superBlockPayloadCore st2 c)))).length
          ≤ i - (4 + 4 + 4 + 4) from by simp only [encodeLE_length]; omega)]
    rw [List.getElem?_append_right
      (show (encodeLE 4 (crc32c (padTo 4076 (superBlockPayloadCore st1 c)))).length
          ≤ i - (4 + 4 + 4 + 4) from by simp only [encodeLE_length]; omega)]
    simp only [encodeLE_length]
    by_cases hA : i - (4 + 4 + 4 + 4) - 4 < 36
    · exact getElem?_prefix_eq (by simp only [List.length_append, encodeLE_length]; omega)
    · rw [List.getElem?_append_right
        (show (encodeLE 4 CURRENT_RELEASE_VERSION ++ encodeLE 8 c.journalHead
            ++ encodeLE 8 c.journalTail ++ encodeLE 8 c.slabCount
            ++ encodeLE 8 c.depotFirstBlock).length ≤ i - (4 + 4 + 4 + 4) - 4
          from by simp only [List.length_append, encodeLE_length]; omega)]
      rw [List.getElem?_append_right
        (show (encodeLE 4 CURRENT_RELEASE_VERSION ++ encodeLE 8 c.journalHead
            ++ encodeLE 8 c.journalTail ++ encodeLE 8 c.slabCount
            ++ encodeLE 8 c.depotFirstBlock).length ≤ i - (4 + 4 + 4 + 4) - 4
          from by simp only [List.length_append, encodeLE_length]; omega)]
      simp only [List.length_append, encodeLE_length]
      exact getElem?_suffix_eq rfl (by
        simp only [List.length_singleton]
        omega)

theorem exceptStep_ok {α β : Type} {x : Except VDOErr α} {a : α} (s : DevState)
    (k : α → Except VDOErr β × DevState) (h : x = Except.ok a) :
    exceptStep x s k = k a := by
  unfold exceptStep
  rw [h]

theorem exceptStep_error {α β : Type} {x : Except VDOErr α} {e : VDOErr} (s : DevState)
    (k : α → Except VDOErr β × DevState) (h : x = Except.error e) :
    exceptStep x s k = (Except.error e, s) := by
  unfold exceptStep
  rw [h]

theorem encodeSuperBlock_length (st : VDOState) (c : SuperBlockContents) :
    (encodeSuperBlock st c).length = 4096 := by
  unfold encodeSuperBlock padTo
  simp only [List.length_append, encodeLE_length, List.length_replicate,
    superBlockPayloadCore_length]

theorem bufBlock_zero_full {data : List Nat} (h : data.length = VDO_BLOCK_SIZE) :
    bufBlock data 0 = data := by
  unfold bufBlock
  rw [Nat.zero_mul, List.drop_zero]
  exact List.take_of_length_le (le_of_eq h)

theorem layerAllocate_ok_flat {L : Layer} {d : Nat → List Nat} {t : List WriteEvent}
    {w r a : Nat} (h : L.allocOk a = true) :
    layerAllocate L ⟨d, t, w, r, a⟩ = (Except.ok (), ⟨d, t, w, r, a + 1⟩) := by
  unfold layerAllocate
  rw [if_pos h]

theorem layerRead_ok_flat {L : Layer} {pbn : Nat} {d : Nat → List Nat} {t : List WriteEvent}
    {w r a : Nat} (h : L.readOk r = true) :
    layerRead L pbn ⟨d, t, w, r, a⟩ = (Except.ok (d pbn), ⟨d, t, w, r + 1, a⟩) := by
  unfold layerRead
  rw [if_pos h]

theorem layerWrite_ok_flat {L : Layer} {pbn count : Nat} {data : List Nat}
    {d : Nat → List Nat} {t : List WriteEvent} {w r a : Nat} (h : L.writeOk w = true) :
    layerWrite L pbn count data ⟨d, t, w, r, a⟩
      = (Except.ok (),
        ⟨fun p => if pbn ≤ p ∧ p < pbn + count then bufBlock data (p - pbn) else d p,
          t ++ [⟨pbn, count, data, true⟩], w + 1, r, a⟩) := by
  unfold layerWrite
  rw [if_pos h]

theorem layerWrite_fail_flat {L : Layer} {pbn count : Nat} {data : List Nat}
    {d : Nat → List Nat} {t : List WriteEvent} {w r a : Nat} (h : L.writeOk w = false) :
    layerWrite L pbn count data ⟨d, t, w, r, a⟩
      = (Except.error VDOErr.ioError, ⟨d, t ++ [⟨pbn, count, data, false⟩], w + 1, r, a⟩) := by
  unfold layerWrite
  rw [if_neg (by simp [h])]

theorem updateVDOSuperBlockState_spec (L : Layer) (g : VolumeGeometry) (st : VDOState)
    (c : SuperBlockContents) (rro : Bool) (newState : VDOState) (d : Nat → List Nat)
    (hvalid : ValidVDODevice d g st c)
    (halloc : L.allocOk 0 = true) (hr0 : L.readOk 0 = true) (hr1 : L.readOk 1 = true)
    (hw0 : L.writeOk 0 = true) :
    ((rro = true ∧ st ≠ VDOState.readOnlyMode) →
      (updateVDOSuperBlockState L rro newState (mkDevState d)).1
          = Except.error VDOErr.notReadOnly
      ∧ (updateVDOSuperBlockState L rro newState (mkDevState d)).2.disk = d
      ∧ (updateVDOSuperBlockState L rro newState (mkDevState d)).2.trace = [])
    ∧ ((rro = false ∨ st = VDOState.readOnlyMode) →
      (updateVDOSuperBlockState L rro newState (mkDevState d)).1 = Except.ok ()
      ∧ (updateVDOSuperBlockState L rro newState (mkDevState d)).2.trace
          = [⟨get_data_region_offset g, 1, encodeSuperBlock newState c, true⟩]
      ∧ (updateVDOSuperBlockState L rro newState
            (mkDevState d)).2.disk (get_data_region_offset g)
          = encodeSuperBlock newState c
      ∧ ∀ p, p ≠ get_data_region_offset g →
          (updateVDOSuperBlockState L rro newState (mkDevState d)).2.disk p = d p) := by
  obtain ⟨hwf, hcr, hd0, hdsb⟩ := hvalid
  have key : updateVDOSuperBlockState L rro newState (mkDevState d)
      = (if rro ∧ st ≠ VDOState.readOnlyMode then
          (Except.error VDOErr.notReadOnly, ⟨d, [], 0, 0 + 1 + 1, 0 + 1⟩)
        else
          layerWrite L (get_data_region_offset g) 1 (encodeSuperBlock newState c)
            ⟨d, [], 0, 0 + 1 + 1, 0 + 1⟩) := by
    unfold updateVDOSuperBlockState prepareSuperBlock mkDevState
    rw [layerAllocate_ok_flat halloc, andThen_pair_ok]
    rw [layerRead_ok_flat hr0, andThen_pair_ok]
    rw [hd0, exceptStep_ok _ _ (loadVolumeGeometry_encode g hwf)]
    dsimp only
    rw [layerRead_ok_flat (show L.readOk (0 + 1) = true from hr1), andThen_pair_ok]
    rw [hdsb, exceptStep_ok _ _ (loadSuperBlock_encode st c hcr)]
    rw [andThen_pair_ok]
  constructor
  · intro hcase
    rw [key, if_pos (by simpa using hcase)]
    exact ⟨rfl, rfl, rfl⟩
  · intro hcase
    have hnot : ¬(rro ∧ st ≠ VDOState.readOnlyMode) := by
      rcases hcase with h | h
      · simp [h]
      · simp [h]
    rw [key, if_neg hnot, layerWrite_ok_flat hw0]
    refine ⟨rfl, by simp, ?_, ?_⟩
    · show (if get_data_region_offset g ≤ get_data_region_offset g
          ∧ get_data_region_offset g < get_data_region_offset g + 1 then
            bufBlock (encodeSuperBlock newState c)
              (get_data_region_offset g - get_data_region_offset g)
          else d (get_data_region_offset g))
        = encodeSuperBlock newState c
      rw [if_pos (by omega), Nat.sub_self]
      exact bufBlock_zero_full (encodeSuperBlock_length newState c)
    · intro p hp
      show (if get_data_region_offset g ≤ p ∧ p < get_data_region_offset g + 1 then
            bufBlock (encodeSuperBlock newState c) (p - get_data_region_offset g)
          else d p) = d p
      rw [if_neg (by omega)]

/-! ## The reconfiguration claims -/

theorem sampleDeviceRO_valid :
    ValidVDODevice sampleDiskRO sampleGeometry VDOState.readOnlyMode sampleContents := by
  refine ⟨?_, ?_, rfl, rfl⟩
  · unfold WFGeometry
    decide
  · unfold ContentsInRange
    decide

/-- C4: for every device holding a loadable VDO whose persisted state is
not READ_ONLY_MODE, `forceVDORebuild` (update_super_block_state with
require_read_only = true) fails with NOT_READ_ONLY and writes nothing to
the device, leaving the super block unchanged; when the persisted state is
READ_ONLY_MODE it succeeds and the stored super-block state becomes
FORCE_REBUILD. -/
theorem claim_forceVDORebuild_gate (L : Layer) (g : VolumeGeometry) (st : VDOState)
    (c : SuperBlockContents) (d : Nat → List Nat)
    (hvalid : ValidVDODevice d g st c)
    (halloc : L.allocOk 0 = true) (hr0 : L.readOk 0 = true) (hr1 : L.readOk 1 = true)
    (hw0 : L.writeOk 0 = true) :
    (st ≠ VDOState.readOnlyMode →
      (forceVDORebuild L (mkDevState d)).1 = Except.error VDOErr.notReadOnly
      ∧ (forceVDORebuild L (mkDevState d)).2.disk = d
      ∧ (forceVDORebuild L (mkDevState d)).2.trace = [])
    ∧ (st = VDOState.readOnlyMode →
      (forceVDORebuild L (mkDevState d)).1 = Except.ok ()
      ∧ loadSuperBlockBytes
          ((forceVDORebuild L (mkDevState d)).2.disk (get_data_region_offset g))
        = Except.ok (VDOState.forceRebuild, c)) := by
  have h := updateVDOSuperBlockState_spec L g st c true VDOState.forceRebuild d hvalid
    halloc hr0 hr1 hw0
  constructor
  · intro hne
    simpa only [forceVDORebuild] using h.1 ⟨rfl, hne⟩
  · intro heq
    obtain ⟨hok, _, hdisk, _⟩ := h.2 (Or.inr heq)
    refine ⟨hok, ?_⟩
    show loadSuperBlockBytes
        ((updateVDOSuperBlockState L true VDOState.forceRebuild
          (mkDevState d)).2.disk (get_data_region_offset g))
      = Except.ok (VDOState.forceRebuild, c)
    rw [hdisk]
    exact loadSuperBlock_encode _ _ hvalid.2.1

theorem claim_forceVDORebuild_gate_witness :
    (forceVDORebuild sampleLayer (mkDevState sampleDiskRO)).1 = Except.ok ()
    ∧ loadSuperBlockBytes
        ((forceVDORebuild sampleLayer (mkDevState sampleDiskRO)).2.disk
          (get_data_region_offset sampleGeometry))
      = Except.ok (VDOState.forceRebuild, sampleContents) :=
  (claim_forceVDORebuild_gate sampleLayer sampleGeometry VDOState.readOnlyMode
    sampleContents sampleDiskRO sampleDeviceRO_valid rfl rfl rfl rfl).2 rfl

/-- C7: a successful update_super_block_state writes exactly one block —
the super block at the data-region origin — and within that block only the
one-byte state field (offset 56) and the four recomputed CRC bytes
(offsets 16–19) may differ from what was stored before; every other byte
of the super block and every other block of the device are unchanged. -/
theorem claim_update_writes_one_block (L : Layer) (g : VolumeGeometry) (st : VDOState)
    (c : SuperBlockContents) (rro : Bool) (newState : VDOState) (d : Nat → List Nat)
    (hvalid : ValidVDODevice d g st c)
    (halloc : L.allocOk 0 = true) (hr0 : L.readOk 0 = true) (hr1 : L.readOk 1 = true)
    (hw0 : L.writeOk 0 = true)
    (hpre : rro = false ∨ st = VDOState.readOnlyMode) :
    (updateVDOSuperBlockState L rro newState (mkDevState d)).1 = Except.ok ()
    ∧ (updateVDOSuperBlockState L rro newState (mkDevState d)).2.trace
        = [⟨get_data_region_offset g, 1, encodeSuperBlock newState c, true⟩]
    ∧ (∀ p, p ≠ get_data_region_offset g →
        (updateVDOSuperBlockState L rro newState (mkDevState d)).2.disk p = d p)
    ∧ (∀ i, i ≠ SUPER_BLOCK_STATE_OFFSET →
        ¬(SUPER_BLOCK_CRC_OFFSET ≤ i ∧ i < SUPER_BLOCK_CRC_OFFSET + 4) →
        ((updateVDOSuperBlockState L rro newState
            (mkDevState d)).2.disk (get_data_region_offset g))[i]?
          = (d (get_data_region_offset g))[i]?) := by
  obtain ⟨hok, htrace, hdisk, hframe⟩ :=
    (updateVDOSuperBlockState_spec L g st c rro newState d hvalid halloc hr0 hr1 hw0).2 hpre
  refine ⟨hok, htrace, hframe, fun i hstate hcrc => ?_⟩
  rw [hdisk, hvalid.2.2.2]
  exact encodeSuperBlock_byte_frame st newState c i hstate hcrc

theorem claim_update_writes_one_block_witness :
    (updateVDOSuperBlockState sampleLayer true VDOState.forceRebuild
        (mkDevState sampleDiskRO)).1 = Except.ok ()
    ∧ (updateVDOSuperBlockState sampleLayer true VDOState.forceRebuild
        (mkDevState sampleDiskRO)).2.disk 0 = sampleDiskRO 0
    ∧ ((updateVDOSuperBlockState sampleLayer true VDOState.forceRebuild
        (mkDevState sampleDiskRO)).2.disk (get_data_region_offset sampleGeometry))[100]?
      = (sampleDiskRO (get_data_region_offset sampleGeometry))[100]? := by
  have h := claim_update_writes_one_block sampleLayer sampleGeometry
    VDOState.readOnlyMode sampleContents true VDOState.forceRebuild sampleDiskRO
    sampleDeviceRO_valid rfl rfl rfl rfl (Or.inr rfl)
  exact ⟨h.1, h.2.2.1 0 (by decide), h.2.2.2 100 (by decide) (by decide)⟩

/-- C8: reconfigure is idempotent: for the two reachable reconfigurations —
force-rebuild (new state FORCE_REBUILD with require_read_only) and
read-only (new state READ_ONLY_MODE without it) — if the first application
succeeds on a loadable device, applying the same reconfiguration again
leaves the super-block block on disk byte-identical to the one left after
the first application. -/
theorem claim_reconfigure_idempotent (L : Layer) (g : VolumeGeometry) (st : VDOState)
    (c : SuperBlockContents) (rro : Bool) (newState : VDOState) (d : Nat → List Nat)
    (hvalid : ValidVDODevice d g st c)
    (hmode : (newState = VDOState.forceRebuild ∧ rro = true)
      ∨ (newState = VDOState.readOnlyMode ∧ rro = false))
    (hfirst : rro = false ∨ st = VDOState.readOnlyMode)
    (halloc : ∀ i, L.allocOk i = true) (hread : ∀ i, L.readOk i = true)
    (hwrite : ∀ i, L.writeOk i = true) :
    (updateVDOSuperBlockState L rro newState (mkDevState d)).1 = Except.ok ()
    ∧ (updateVDOSuperBlockState L rro newState
        (mkDevState (updateVDOSuperBlockState L rro newState
          (mkDevState d)).2.disk)).2.disk (get_data_region_offset g)
      = (updateVDOSuperBlockState L rro newState
          (mkDevState d)).2.disk (get_data_region_offset g) := by
  obtain ⟨hwf, hcr, hd0, hdsb⟩ := hvalid
  obtain ⟨hok1, _, hdisk1, hframe1⟩ :=
    (updateVDOSuperBlockState_spec L g st c rro newState d ⟨hwf, hcr, hd0, hdsb⟩
      (halloc 0) (hread 0) (hread 1) (hwrite 0)).2 hfirst
  set d1 := (updateVDOSuperBlockState L rro newState (mkDevState d)).2.disk with hd1def
  have hvalid1 : ValidVDODevice d1 g newState c := by
    refine ⟨hwf, hcr, ?_, hdisk1⟩
    rw [hframe1 0 (by unfold get_data_region_offset; omega)]
    exact hd0
  have h2 := updateVDOSuperBlockState_spec L g newState c rro newState d1 hvalid1
    (halloc 0) (hread 0) (hread 1) (hwrite 0)
  refine ⟨hok1, ?_⟩
  rcases hmode with ⟨hns, hrro⟩ | ⟨hns, hrro⟩
  · subst hns hrro
    rw [(h2.1 ⟨rfl, by decide⟩).2.1]
  · subst hns hrro
    rw [(h2.2 (Or.inl rfl)).2.2.1, hdisk1]

theorem claim_reconfigure_idempotent_witness :
    (updateVDOSuperBlockState sampleLayer false VDOState.readOnlyMode
        (mkDevState sampleDiskRO)).1 = Except.ok ()
    ∧ (updateVDOSuperBlockState sampleLayer false VDOState.readOnlyMode
        (mkDevState (updateVDOSuperBlockState sampleLayer false VDOState.readOnlyMode
          (mkDevState sampleDiskRO)).2.disk)).2.disk
        (get_data_region_offset sampleGeometry)
      = (updateVDOSuperBlockState sampleLayer false VDOState.readOnlyMode
          (mkDevState sampleDiskRO)).2.disk (get_data_region_offset sampleGeometry) :=
  claim_reconfigure_idempotent sampleLayer sampleGeometry VDOState.readOnlyMode
    sampleContents false VDOState.readOnlyMode sampleDiskRO sampleDeviceRO_valid
    (Or.inr ⟨rfl, rfl⟩) (Or.inl rfl) (fun _ => rfl) (fun _ => rfl) (fun _ => rfl)

/-! ## The format claims: helper lemmas -/

theorem layerAllocate_fail {L : Layer} {s : DevState} (h : L.allocOk s.allocCalls = false) :
    layerAllocate L s
      = (Except.error VDOErr.outOfMemory, { s with allocCalls := s.allocCalls + 1 }) := by
  unfold layerAllocate
  rw [if_neg (by simp [h])]

theorem clearPartition_allocFail (L : Layer) (layout : VdoLayout) (id : PartitionID)
    (s : DevState) (h : L.allocOk s.allocCalls = false) :
    clearPartition L layout id s
      = (Except.error VDOErr.outOfMemory, { s with allocCalls := s.allocCalls + 1 }) := by
  unfold clearPartition
  rw [layerAllocate_fail h, andThen_pair_error]

theorem writeOracle_dichotomy (L : Layer) (w : Nat) :
    ∀ chunks, (∀ i, i < chunks → L.writeOk (w + i) = true)
      ∨ ∃ k, k < chunks ∧ (∀ i, i < k → L.writeOk (w + i) = true)
          ∧ L.writeOk (w + k) = false := by
  intro chunks
  induction chunks with
  | zero => exact Or.inl fun i hi => absurd hi (by omega)
  | succ n ih =>
      rcases ih with hall | ⟨k, hk, hb, hf⟩
      · cases hn : L.writeOk (w + n) with
        | true =>
            refine Or.inl fun i hi => ?_
            rcases Nat.lt_succ_iff_lt_or_eq.mp hi with h | h
            · exact hall i h
            · rw [h]
              exact hn
        | false => exact Or.inr ⟨n, by omega, hall, hn⟩
      · exact Or.inr ⟨k, by omega, hb, hf⟩

theorem make_vdo_layout_offsets {pb so bm j sum : Nat} {layout : VdoLayout}
    (h : make_vdo_layout pb so bm j sum = Except.ok layout) :
    ∀ id, so ≤ (get_vdo_partition layout id).offset := by
  unfold make_vdo_layout at h
  by_cases h1 : pb ≤ so
  · rw [if_pos h1] at h
    exact absurd h (by simp)
  · rw [if_neg h1] at h
    by_cases h2 : pb - so < bm + j + sum + 1
    · rw [if_pos h2] at h
      exact absurd h (by simp)
    · rw [if_neg h2] at h
      simp only [Except.ok.injEq] at h
      subst h
      intro id
      cases id <;> simp only [get_vdo_partition] <;> omega

theorem makeVDOLayoutFromConfig_offsets {cfg : VDOConfig} {so : Nat} {layout : VdoLayout}
    (h : makeVDOLayoutFromConfig cfg so = Except.ok layout) :
    ∀ id, so ≤ (get_vdo_partition layout id).offset := by
  unfold makeVDOLayoutFromConfig at h
  exact make_vdo_layout_offsets h

theorem geo_getElem0 (g : VolumeGeometry) : (encodeVolumeGeometry g)[0]? = some 100 := by
  unfold encodeVolumeGeometry
  simp only [List.append_assoc]
  rw [getElem?_append_left_eq (by decide)]
  decide

theorem sb_getElem0 (st : VDOState) (c : SuperBlockContents) :
    (encodeSuperBlock st c)[0]? = some 12 := by
  rw [encodeSuperBlock_eq]
  simp only [List.append_assoc]
  rw [getElem?_append_left_eq (by decide)]
  decide

theorem replicate_ne_geo {n : Nat} (h : 0 < n) (g : VolumeGeometry) :
    List.replicate n (0 : Nat) ≠ encodeVolumeGeometry g := by
  cases n with
  | zero => exact absurd h (by omega)
  | succ m =>
      intro he
      have h0 : (List.replicate (m + 1) (0 : Nat))[0]? = (encodeVolumeGeometry g)[0]? := by
        rw [he]
      rw [geo_getElem0, List.replicate_succ] at h0
      simp at h0

theorem sb_ne_geo (st : VDOState) (c : SuperBlockContents) (g : VolumeGeometry) :
    encodeSuperBlock st c ≠ encodeVolumeGeometry g := by
  intro he
  have h0 : (encodeSuperBlock st c)[0]? = (encodeVolumeGeometry g)[0]? := by rw [he]
  rw [geo_getElem0, sb_getElem0] at h0
  simp at h0

theorem clearChunkEvents_mem {start B k : Nat} {e : WriteEvent}
    (h : e ∈ clearChunkEvents start B k) :
    e.ok = true ∧ e.data = List.replicate (B * VDO_BLOCK_SIZE) 0 := by
  unfold clearChunkEvents at h
  simp only [List.mem_map, List.mem_range] at h
  obtain ⟨i, _, rfl⟩ := h
  exact ⟨rfl, rfl⟩

theorem chunkEvents_clean {start B k : Nat} {g : VolumeGeometry} (hB : 0 < B) :
    ∀ y ∈ clearChunkEvents start B k, y.ok = true ∧ y.data ≠ encodeVolumeGeometry g := by
  intro y hy
  obtain ⟨hok, hdata⟩ := clearChunkEvents_mem hy
  refine ⟨hok, ?_⟩
  rw [hdata]
  exact replicate_ne_geo (Nat.mul_pos hB (by decide)) g

theorem partitionClearEvents_clean {part : Partition} {g : VolumeGeometry} :
    ∀ y ∈ partitionClearEvents part, y.ok = true ∧ y.data ≠ encodeVolumeGeometry g := by
  intro y hy
  unfold partitionClearEvents at hy
  exact chunkEvents_clean (computeBufferBlocks_pos part.size) y hy

theorem trace_last_only {geo : List Nat} {A : List WriteEvent} {x : WriteEvent}
    (hA : ∀ y ∈ A, y.ok = true ∧ y.data ≠ geo) :
    ∀ t1 e t2, A ++ [x] = t1 ++ e :: t2 → e.data = geo →
      t2 = [] ∧ ∀ y ∈ t1, y.ok = true := by
  intro t1 e t2 ht hdata
  rcases List.eq_nil_or_concat t2 with h2 | ⟨t2a, z, h2⟩
  · subst h2
    obtain ⟨hAt, _⟩ := List.append_inj' ht rfl
    refine ⟨rfl, fun y hy => ?_⟩
    rw [← hAt] at hy
    exact (hA y hy).1
  · rw [List.concat_eq_append] at h2
    subst h2
    have ht2 : A ++ [x] = (t1 ++ e :: t2a) ++ [z] := by
      rw [List.append_assoc, List.cons_append]
      exact ht
    obtain ⟨hAt, _⟩ := List.append_inj' ht2 rfl
    have he : e ∈ A := by
      rw [hAt]
      exact List.mem_append_right _ (List.mem_cons_self e t2a)
    exact absurd hdata (hA e he).2

theorem trace_all_clean {geo : List Nat} {t : List WriteEvent}
    (h : ∀ y ∈ t, y.ok = true ∧ y.data ≠ geo) :
    ∀ t1 e t2, t = t1 ++ e :: t2 → e.data = geo → t2 = [] ∧ ∀ x ∈ t1, x.ok = true := by
  intro t1 e t2 ht hd
  have he : e ∈ t := by
    rw [ht]
    exact List.mem_append_right _ (List.mem_cons_self e t2)
  exact absurd hd (h e he).2

theorem configureVDO_cases (L : Layer) (cfg : VDOConfig) (nonce fbo : Nat) (s : DevState) :
    ((∃ e, (configureVDO L cfg nonce fbo s).1 = Except.error e)
      ∨ (∃ vdo, (configureVDO L cfg nonce fbo s).1 = Except.ok vdo
          ∧ vdo.firstBlockOffset = fbo ∧ vdo.state = VDOState.vdoNew
          ∧ makeVDOLayoutFromConfig cfg (fbo + 1) = Except.ok vdo.layout))
    ∧ (configureVDO L cfg nonce fbo s).2.disk = s.disk
    ∧ (configureVDO L cfg nonce fbo s).2.trace = s.trace
    ∧ (configureVDO L cfg nonce fbo s).2.writeCalls = s.writeCalls
    ∧ (configureVDO L cfg nonce fbo s).2.readCalls = s.readCalls := by
  unfold configureVDO
  cases hlay : makeVDOLayoutFromConfig cfg (fbo + 1) with
  | error e =>
      rw [exceptStep_error _ _ rfl]
      exact ⟨Or.inl ⟨e, rfl⟩, rfl, rfl, rfl, rfl⟩
  | ok layout =>
      rw [exceptStep_ok _ _ rfl]
      dsimp only
      cases ha1 : L.allocOk s.allocCalls with
      | false =>
          rw [layerAllocate_fail ha1, andThen_pair_error]
          exact ⟨Or.inl ⟨_, rfl⟩, rfl, rfl, rfl, rfl⟩
      | true =>
          rw [layerAllocate_ok ha1, andThen_pair_ok]
          cases hsl : configure_slab cfg.slabSize cfg.slabJournalBlocks with
          | error e =>
              rw [exceptStep_error _ _ rfl]
              exact ⟨Or.inl ⟨e, rfl⟩, rfl, rfl, rfl, rfl⟩
          | ok sc =>
              rw [exceptStep_ok _ _ rfl]
              cases ha2 : L.allocOk (s.allocCalls + 1) with
              | false =>
                  rw [layerAllocate_fail ha2, andThen_pair_error]
                  exact ⟨Or.inl ⟨_, rfl⟩, rfl, rfl, rfl, rfl⟩
              | true =>
                  rw [layerAllocate_ok ha2, andThen_pair_ok]
                  by_cases hsc : calculate_slab_count
                      (get_vdo_partition layout PartitionID.blockAllocator).size
                      cfg.slabSize = 0
                  · rw [if_pos hsc]
                    exact ⟨Or.inl ⟨_, rfl⟩, rfl, rfl, rfl, rfl⟩
                  · rw [if_neg hsc]
                    cases ha3 : L.allocOk (s.allocCalls + 1 + 1) with
                    | false =>
                        rw [layerAllocate_fail ha3, andThen_pair_error]
                        exact ⟨Or.inl ⟨_, rfl⟩, rfl, rfl, rfl, rfl⟩
                    | true =>
                        rw [layerAllocate_ok ha3, andThen_pair_ok]
                        cases ha4 : L.allocOk (s.allocCalls + 1 + 1 + 1) with
                        | false =>
                            rw [layerAllocate_fail ha4, andThen_pair_error]
                            exact ⟨Or.inl ⟨_, rfl⟩, rfl, rfl, rfl, rfl⟩
                        | true =>
                            rw [layerAllocate_ok ha4, andThen_pair_ok]
                            exact ⟨Or.inr ⟨_, rfl, rfl, rfl, rfl⟩, rfl, rfl, rfl, rfl⟩

theorem makeAndWriteVDO_master (L : Layer) (cfg : VDOConfig) (g : VolumeGeometry)
    (s : DevState) :
    ((makeAndWriteVDO L cfg g s).1 = Except.ok () →
      ∃ vdo : VDOInfo,
        (makeAndWriteVDO L cfg g s).2.trace
          = s.trace
            ++ partitionClearEvents (get_vdo_partition vdo.layout PartitionID.blockMap)
            ++ partitionClearEvents (get_vdo_partition vdo.layout PartitionID.recoveryJournal)
            ++ [⟨get_data_region_offset g, 1,
                encodeSuperBlock VDOState.vdoNew (superBlockContentsOf vdo), true⟩])
    ∧ ((∀ y ∈ s.trace, y.ok = true ∧ y.data ≠ encodeVolumeGeometry g) →
      ∀ t1 e t2, (makeAndWriteVDO L cfg g s).2.trace = t1 ++ e :: t2 →
        e.data = encodeVolumeGeometry g →
        t2 = [] ∧ ∀ x ∈ t1, x.ok = true)
    ∧ (makeAndWriteVDO L cfg g s).2.disk 0 = s.disk 0 := by
  unfold makeAndWriteVDO
  cases ha0 : L.allocOk s.allocCalls with
  | false =>
      rw [layerAllocate_fail ha0, andThen_pair_error]
      exact ⟨fun h => absurd h (by simp),
        fun hclean t1 e' t2 ht hd => trace_all_clean hclean t1 e' t2 ht hd, rfl⟩
  | true =>
      rw [layerAllocate_ok ha0, andThen_pair_ok]
      obtain ⟨hres, hD, hT, hW, hR⟩ := configureVDO_cases L cfg g.nonce
        (get_data_region_offset g) { s with allocCalls := s.allocCalls + 1 }
      rcases hres with ⟨e, herr⟩ | ⟨vdo, hok, hfb, hst, hlay⟩
      · rw [andThen_eq_error herr]
        refine ⟨fun h => absurd h (by simp), fun hclean t1 e' t2 ht hd => ?_, ?_⟩
        · have ht2 : (configureVDO L cfg g.nonce (get_data_region_offset g)
              { s with allocCalls := s.allocCalls + 1 }).2.trace = t1 ++ e' :: t2 := ht
          rw [hT] at ht2
          exact trace_all_clean hclean t1 e' t2 ht2 hd
        · exact congrFun hD 0
      · rw [andThen_eq_ok hok]
        have hoffbm : 0 < (get_vdo_partition vdo.layout PartitionID.blockMap).offset := by
          have := makeVDOLayoutFromConfig_offsets hlay PartitionID.blockMap
          omega
        have hoffrj : 0 <
            (get_vdo_partition vdo.layout PartitionID.recoveryJournal).offset := by
          have := makeVDOLayoutFromConfig_offsets hlay PartitionID.recoveryJournal
          omega
        have hfbopos : 0 < get_data_region_offset g := by
          unfold get_data_region_offset
          omega
        set s3 := (configureVDO L cfg g.nonce (get_data_region_offset g)
          { s with allocCalls := s.allocCalls + 1 }).2 with hs3
        cases habm : L.allocOk s3.allocCalls with
        | false =>
            rw [clearPartition_allocFail _ _ _ _ habm, andThen_pair_error]
            refine ⟨fun h => absurd h (by simp), fun hclean t1 e' t2 ht hd => ?_, ?_⟩
            · have ht2 : s3.trace = t1 ++ e' :: t2 := ht
              rw [hT] at ht2
              exact trace_all_clean hclean t1 e' t2 ht2 hd
            · exact congrFun hD 0
        | true =>
            rcases writeOracle_dichotomy L s3.writeCalls
                (ceilDiv (get_vdo_partition vdo.layout PartitionID.blockMap).size
                  (computeBufferBlocks
                    (get_vdo_partition vdo.layout PartitionID.blockMap).size)) with
              hall | ⟨k, hkc, hbef, hkf⟩
            · obtain ⟨hc1, hcT, hcW, hcA, hcR, hcIn, hcFr⟩ :=
                clearPartition_ok L vdo.layout PartitionID.blockMap s3 habm hall
              rw [andThen_eq_ok hc1]
              set s4 := (clearPartition L vdo.layout PartitionID.blockMap s3).2 with hs4
              cases harj : L.allocOk s4.allocCalls with
              | false =>
                  rw [clearPartition_allocFail _ _ _ _ harj, andThen_pair_error]
                  refine ⟨fun h => absurd h (by simp),
                    fun hclean t1 e' t2 ht hd => ?_, ?_⟩
                  · have ht2 : s4.trace = t1 ++ e' :: t2 := ht
                    rw [hcT, hT] at ht2
                    refine trace_all_clean ?_ t1 e' t2 ht2 hd
                    intro y hy
                    rcases List.mem_append.mp hy with hy | hy
                    · exact hclean y hy
                    · exact partitionClearEvents_clean y hy
                  · exact ((hcFr 0 (Or.inl hoffbm)).trans (congrFun hD 0))
              | true =>
                  rcases writeOracle_dichotomy L s4.writeCalls
                      (ceilDiv
                        (get_vdo_partition vdo.layout PartitionID.recoveryJournal).size
                        (computeBufferBlocks
                          (get_vdo_partition vdo.layout
                            PartitionID.recoveryJournal).size)) with
                    hall2 | ⟨k2, hkc2, hbef2, hkf2⟩
                  · obtain ⟨hc1r, hcTr, hcWr, hcAr, hcRr, hcInr, hcFrr⟩ :=
                      clearPartition_ok L vdo.layout PartitionID.recoveryJournal s4
                        harj hall2
                    rw [andThen_eq_ok hc1r]
                    set s5 := (clearPartition L vdo.layout
                      PartitionID.recoveryJournal s4).2 with hs5
                    have hs5clean : ∀ y ∈ s5.trace,
                        (∀ y ∈ s.trace, y.ok = true ∧ y.data ≠ encodeVolumeGeometry g) →
                        y.ok = true ∧ y.data ≠ encodeVolumeGeometry g := by
                      rw [hcTr, hcT, hT]
                      intro y hy hclean
                      rcases List.mem_append.mp hy with hy | hy
                      · rcases List.mem_append.mp hy with hy | hy
                        · exact hclean y hy
                        · exact partitionClearEvents_clean y hy
                      · exact partitionClearEvents_clean y hy
                    unfold saveVDOComponents
                    rw [hfb, hst]
                    cases hsbw : L.writeOk s5.writeCalls with
                    | false =>
                        rw [layerWrite_fail hsbw]
                        refine ⟨fun h => absurd h (by simp),
                          fun hclean t1 e' t2 ht hd => ?_, ?_⟩
                        · exact trace_last_only
                            (fun y hy => hs5clean y hy hclean) t1 e' t2 ht hd
                        · exact ((hcFrr 0 (Or.inl hoffrj)).trans
                            ((hcFr 0 (Or.inl hoffbm)).trans (congrFun hD 0)))
                    | true =>
                        rw [layerWrite_ok hsbw]
                        refine ⟨fun _ => ⟨vdo, ?_⟩,
                          fun hclean t1 e' t2 ht hd => ?_, ?_⟩
                        · rw [hcTr, hcT, hT]
                        · exact trace_last_only
                            (fun y hy => hs5clean y hy hclean) t1 e' t2 ht hd
                        · show (if get_data_region_offset g ≤ 0
                              ∧ 0 < get_data_region_offset g + 1 then
                                bufBlock (encodeSuperBlock VDOState.vdoNew
                                  (superBlockContentsOf vdo))
                                  (0 - get_data_region_offset g)
                              else s5.disk 0) = s.disk 0
                          rw [if_neg (by omega)]
                          exact ((hcFrr 0 (Or.inl hoffrj)).trans
                            ((hcFr 0 (Or.inl hoffbm)).trans (congrFun hD 0)))
                  · obtain ⟨hc1r, hcTr, hcWr, hcDr, hcFr2, hcGr⟩ :=
                      clearPartition_fail L vdo.layout PartitionID.recoveryJournal s4 k2
                        harj hkc2 hbef2 hkf2
                    rw [andThen_eq_error hc1r]
                    refine ⟨fun h => absurd h (by simp),
                      fun hclean t1 e' t2 ht hd => ?_, ?_⟩
                    · have ht2 : (clearPartition L vdo.layout
                          PartitionID.recoveryJournal s4).2.trace = t1 ++ e' :: t2 := ht
                      rw [hcTr] at ht2
                      refine trace_last_only ?_ t1 e' t2 ht2 hd
                      intro y hy
                      rcases List.mem_append.mp hy with hy | hy
                      · revert hy
                        rw [hcT, hT]
                        intro hy
                        rcases List.mem_append.mp hy with hy | hy
                        · exact hclean y hy
                        · exact partitionClearEvents_clean y hy
                      · exact chunkEvents_clean (computeBufferBlocks_pos _) y hy
                    · exact ((hcGr 0 hoffrj).trans
                        ((hcFr 0 (Or.inl hoffbm)).trans (congrFun hD 0)))
            · obtain ⟨hc1, hcT, hcW, hcD, hcF, hcG⟩ :=
                clearPartition_fail L vdo.layout PartitionID.blockMap s3 k habm hkc
                  hbef hkf
              rw [andThen_eq_error hc1]
              refine ⟨fun h => absurd h (by simp),
                fun hclean t1 e' t2 ht hd => ?_, ?_⟩
              · have ht2 : (clearPartition L vdo.layout
                    PartitionID.blockMap s3).2.trace = t1 ++ e' :: t2 := ht
                rw [hcT] at ht2
                refine trace_last_only ?_ t1 e' t2 ht2 hd
                intro y hy
                rcases List.mem_append.mp hy with hy | hy
                · revert hy
                  rw [hT]
                  intro hy
                  exact hclean y hy
                · exact chunkEvents_clean (computeBufferBlocks_pos _) y hy
              · exact ((hcG 0 hoffbm).trans (congrFun hD 0))

theorem format_tail (L : Layer) (cfg : VDOConfig) (g : VolumeGeometry) (s : DevState) :
    ((andThen (makeAndWriteVDO L cfg g s) fun _ s2 =>
        write_volume_geometry L g s2).1 = Except.ok () →
      ∃ vdo : VDOInfo,
        (andThen (makeAndWriteVDO L cfg g s) fun _ s2 =>
          write_volume_geometry L g s2).2.trace
          = s.trace
            ++ partitionClearEvents (get_vdo_partition vdo.layout PartitionID.blockMap)
            ++ partitionClearEvents (get_vdo_partition vdo.layout PartitionID.recoveryJournal)
            ++ [⟨get_data_region_offset g, 1,
                encodeSuperBlock VDOState.vdoNew (superBlockContentsOf vdo), true⟩]
            ++ [⟨0, 1, encodeVolumeGeometry g, true⟩])
    ∧ ((∀ y ∈ s.trace, y.ok = true ∧ y.data ≠ encodeVolumeGeometry g) →
      ∀ t1 e t2,
        (andThen (makeAndWriteVDO L cfg g s) fun _ s2 =>
          write_volume_geometry L g s2).2.trace = t1 ++ e :: t2 →
        e.data = encodeVolumeGeometry g →
        t2 = [] ∧ ∀ x ∈ t1, x.ok = true)
    ∧ ((andThen (makeAndWriteVDO L cfg g s) fun _ s2 =>
        write_volume_geometry L g s2).1 ≠ Except.ok () →
      (andThen (makeAndWriteVDO L cfg g s) fun _ s2 =>
        write_volume_geometry L g s2).2.disk 0 = s.disk 0) := by
  obtain ⟨hM1, hM2, hM3⟩ := makeAndWriteVDO_master L cfg g s
  cases hmw : (makeAndWriteVDO L cfg g s).1 with
  | error e =>
      rw [andThen_eq_error hmw]
      exact ⟨fun h => absurd h (by simp),
        fun hclean t1 e' t2 ht hd => hM2 hclean t1 e' t2 ht hd, fun _ => hM3⟩
  | ok u =>
      cases u
      rw [andThen_eq_ok hmw]
      obtain ⟨vdo, hTr⟩ := hM1 hmw
      have hAclean : (∀ y ∈ s.trace, y.ok = true ∧ y.data ≠ encodeVolumeGeometry g) →
          ∀ y ∈ (makeAndWriteVDO L cfg g s).2.trace,
            y.ok = true ∧ y.data ≠ encodeVolumeGeometry g := by
        intro hclean y hy
        rw [hTr] at hy
        rcases List.mem_append.mp hy with hy | hy
        · rcases List.mem_append.mp hy with hy | hy
          · rcases List.mem_append.mp hy with hy | hy
            · exact hclean y hy
            · exact partitionClearEvents_clean y hy
          · exact partitionClearEvents_clean y hy
        · have hy2 := List.mem_singleton.mp hy
          subst hy2
          exact ⟨rfl, sb_ne_geo _ _ _⟩
      unfold write_volume_geometry
      cases hwg : L.writeOk (makeAndWriteVDO L cfg g s).2.writeCalls with
      | false =>
          rw [layerWrite_fail hwg]
          refine ⟨fun h => absurd h (by simp),
            fun hclean t1 e' t2 ht hd => ?_, fun _ => ?_⟩
          · exact trace_last_only (hAclean hclean) t1 e' t2 ht hd
          · exact hM3
      | true =>
          rw [layerWrite_ok hwg]
          refine ⟨fun _ => ⟨vdo, ?_⟩, fun hclean t1 e' t2 ht hd => ?_, fun hne => ?_⟩
          · show (makeAndWriteVDO L cfg g s).2.trace
                ++ [⟨0, 1, encodeVolumeGeometry g, true⟩]
              = s.trace
                ++ partitionClearEvents (get_vdo_partition vdo.layout PartitionID.blockMap)
                ++ partitionClearEvents
                    (get_vdo_partition vdo.layout PartitionID.recoveryJournal)
                ++ [⟨get_data_region_offset g, 1,
                    encodeSuperBlock VDOState.vdoNew (superBlockContentsOf vdo), true⟩]
                ++ [⟨0, 1, encodeVolumeGeometry g, true⟩]
            rw [hTr]
          · exact trace_last_only (hAclean hclean) t1 e' t2 ht hd
          · exact absurd rfl hne

theorem formatVDOWithNonce_master (L : Layer) (cfg : VDOConfig) (ic : IndexConfig)
    (nonce : Nat) (uuid : List Nat) (d : Nat → List Nat) :
    ((formatVDOWithNonce L cfg ic nonce uuid (mkDevState d)).1 = Except.ok () →
      ∃ vdo : VDOInfo,
        (formatVDOWithNonce L cfg ic nonce uuid (mkDevState d)).2.trace
          = [⟨0, 1, List.replicate VDO_BLOCK_SIZE 0, true⟩]
            ++ partitionClearEvents (get_vdo_partition vdo.layout PartitionID.blockMap)
            ++ partitionClearEvents (get_vdo_partition vdo.layout PartitionID.recoveryJournal)
            ++ [⟨get_data_region_offset (build_geometry nonce uuid ic), 1,
                encodeSuperBlock VDOState.vdoNew (superBlockContentsOf vdo), true⟩]
            ++ [⟨0, 1, encodeVolumeGeometry (build_geometry nonce uuid ic), true⟩])
    ∧ (∀ t1 e t2,
        (formatVDOWithNonce L cfg ic nonce uuid (mkDevState d)).2.trace = t1 ++ e :: t2 →
        e.data = encodeVolumeGeometry (build_geometry nonce uuid ic) →
        t2 = [] ∧ ∀ x ∈ t1, x.ok = true)
    ∧ (validateVDOConfig cfg L.blockCount = Except.ok () → L.writeOk 0 = true →
        (formatVDOWithNonce L cfg ic nonce uuid (mkDevState d)).1 ≠ Except.ok () →
        (formatVDOWithNonce L cfg ic nonce uuid (mkDevState d)).2.disk 0
          = List.replicate VDO_BLOCK_SIZE 0) := by
  unfold formatVDOWithNonce
  cases hval : validateVDOConfig cfg L.blockCount with
  | error e =>
      rw [exceptStep_error _ _ rfl]
      refine ⟨fun h => absurd h (by simp), fun t1 e' t2 ht hd => ?_, fun hv _ _ => ?_⟩
      · have ht2 : ([] : List WriteEvent) = t1 ++ e' :: t2 := ht
        exact absurd ht2.symm (by simp)
      · exact absurd hv (by simp)
  | ok a =>
      rw [exceptStep_ok _ _ rfl]
      dsimp only
      unfold clear_volume_geometry mkDevState
      cases hw0 : L.writeOk 0 with
      | false =>
          rw [layerWrite_fail_flat hw0, andThen_pair_error]
          refine ⟨fun h => absurd h (by simp), fun t1 e' t2 ht hd => ?_, fun _ hw _ => ?_⟩
          · exact trace_last_only (fun y hy => absurd hy (by simp)) t1 e' t2 ht hd
          · exact absurd hw (by simp)
      | true =>
          rw [layerWrite_ok_flat hw0, andThen_pair_ok]
          have happ := format_tail L cfg (build_geometry nonce uuid ic)
            ⟨fun p => if 0 ≤ p ∧ p < 0 + 1 then
                bufBlock (List.replicate VDO_BLOCK_SIZE 0) (p - 0) else d p,
              [] ++ [⟨0, 1, List.replicate VDO_BLOCK_SIZE 0, true⟩], 0 + 1, 0, 0⟩
          have hcleanS1 : ∀ y ∈
              ([] ++ [WriteEvent.mk 0 1 (List.replicate VDO_BLOCK_SIZE 0) true]),
              y.ok = true ∧ y.data ≠ encodeVolumeGeometry (build_geometry nonce uuid ic) := by
            intro y hy
            have hy2 := List.mem_singleton.mp (by simpa using hy)
            subst hy2
            exact ⟨rfl, replicate_ne_geo (by decide) _⟩
          have hS1disk : (if 0 ≤ 0 ∧ 0 < 0 + 1 then
              bufBlock (List.replicate VDO_BLOCK_SIZE 0) (0 - 0) else d 0)
              = List.replicate VDO_BLOCK_SIZE 0 := by
            rw [if_pos (by omega)]
            exact bufBlock_zero_full (by simp)
          exact ⟨happ.1, fun t1 e' t2 ht hd => happ.2.1 hcleanS1 t1 e' t2 ht hd,
            fun _ _ hne => (happ.2.2 hne).trans hS1disk⟩

/-- C1: in every execution of formatVDOWithNonce, writes occur in the
order: the geometry block at PBN 0 is zeroed first, then the block-map and
recovery-journal partitions are cleared and the super block is written,
and the valid volume geometry is written to PBN 0 last (the exact
successful trace); moreover the geometry write is issued only if every
earlier step returned success: any traced write carrying the encoded
geometry is the last write of the run and every write before it
succeeded. -/
theorem claim_format_write_order (L : Layer) (cfg : VDOConfig) (ic : IndexConfig)
    (nonce : Nat) (uuid : List Nat) (d : Nat → List Nat) :
    ((formatVDOWithNonce L cfg ic nonce uuid (mkDevState d)).1 = Except.ok () →
      ∃ vdo : VDOInfo,
        (formatVDOWithNonce L cfg ic nonce uuid (mkDevState d)).2.trace
          = [⟨0, 1, zeroBlockBytes, true⟩]
            ++ partitionClearEvents (get_vdo_partition vdo.layout PartitionID.blockMap)
            ++ partitionClearEvents (get_vdo_partition vdo.layout PartitionID.recoveryJournal)
            ++ [⟨get_data_region_offset (build_geometry nonce uuid ic), 1,
                encodeSuperBlock VDOState.vdoNew (superBlockContentsOf vdo), true⟩]
            ++ [⟨0, 1, encodeVolumeGeometry (build_geometry nonce uuid ic), true⟩])
    ∧ (∀ t1 e t2,
        (formatVDOWithNonce L cfg ic nonce uuid (mkDevState d)).2.trace = t1 ++ e :: t2 →
        e.data = encodeVolumeGeometry (build_geometry nonce uuid ic) →
        t2 = [] ∧ ∀ x ∈ t1, x.ok = true) :=
  ⟨(formatVDOWithNonce_master L cfg ic nonce uuid d).1,
   (formatVDOWithNonce_master L cfg ic nonce uuid d).2.1⟩

theorem claim_format_write_order_witness :
    (formatVDOWithNonce sampleLayer sampleConfig sampleIndexConfig 7 sampleUUID
        (mkDevState blankDisk)).1 = Except.ok ()
    ∧ ∃ vdo : VDOInfo,
        (formatVDOWithNonce sampleLayer sampleConfig sampleIndexConfig 7 sampleUUID
          (mkDevState blankDisk)).2.trace
          = [⟨0, 1, zeroBlockBytes, true⟩]
            ++ partitionClearEvents (get_vdo_partition vdo.layout PartitionID.blockMap)
            ++ partitionClearEvents (get_vdo_partition vdo.layout PartitionID.recoveryJournal)
            ++ [⟨get_data_region_offset (build_geometry 7 sampleUUID sampleIndexConfig), 1,
                encodeSuperBlock VDOState.vdoNew (superBlockContentsOf vdo), true⟩]
            ++ [⟨0, 1, encodeVolumeGeometry (build_geometry 7 sampleUUID sampleIndexConfig),
                true⟩] := by
  have hok : (formatVDOWithNonce sampleLayer sampleConfig sampleIndexConfig 7 sampleUUID
      (mkDevState blankDisk)).1 = Except.ok () := by decide
  exact ⟨hok, (claim_format_write_order sampleLayer sampleConfig sampleIndexConfig 7
    sampleUUID blankDisk).1 hok⟩

/-- C2: if the format fails at any step after the geometry block has been
cleared (the configuration validated and the zero write to PBN 0
succeeded) and the run ends in an error, then PBN 0 still holds the zero
block and a subsequent geometry load returns BAD_MAGIC. -/
theorem claim_format_torn_load (L : Layer) (cfg : VDOConfig) (ic : IndexConfig)
    (nonce : Nat) (uuid : List Nat) (d : Nat → List Nat) (e : VDOErr)
    (hval : validateVDOConfig cfg L.blockCount = Except.ok ())
    (hw0 : L.writeOk 0 = true)
    (herr : (formatVDOWithNonce L cfg ic nonce uuid (mkDevState d)).1 = Except.error e) :
    (formatVDOWithNonce L cfg ic nonce uuid (mkDevState d)).2.disk 0 = zeroBlockBytes
    ∧ loadVolumeGeometryBytes
        ((formatVDOWithNonce L cfg ic nonce uuid (mkDevState d)).2.disk 0)
      = Except.error VDOErr.badMagic := by
  have h := (formatVDOWithNonce_master L cfg ic nonce uuid d).2.2 hval hw0
    (by rw [herr]; simp)
  refine ⟨h, ?_⟩
  rw [h]
  decide

theorem claim_format_torn_load_witness :
    validateVDOConfig sampleConfig sampleLayerFailSecond.blockCount = Except.ok ()
    ∧ sampleLayerFailSecond.writeOk 0 = true
    ∧ (formatVDOWithNonce sampleLayerFailSecond sampleConfig sampleIndexConfig 7 sampleUUID
        (mkDevState blankDisk)).1 = Except.error VDOErr.ioError
    ∧ loadVolumeGeometryBytes
        ((formatVDOWithNonce sampleLayerFailSecond sampleConfig sampleIndexConfig 7
          sampleUUID (mkDevState blankDisk)).2.disk 0)
      = Except.error VDOErr.badMagic := by
  have herr : (formatVDOWithNonce sampleLayerFailSecond sampleConfig sampleIndexConfig 7
      sampleUUID (mkDevState blankDisk)).1 = Except.error VDOErr.ioError := by decide
  exact ⟨by decide, rfl, herr,
    (claim_format_torn_load sampleLayerFailSecond sampleConfig sampleIndexConfig 7
      sampleUUID blankDisk VDOErr.ioError (by decide) rfl herr).2⟩
